import Mathlib

/-!
Shallow embedding of systemd-sysusers (`src/sysusers/sysusers.c`) and proofs
about its allocation / reconciliation / commit behaviour.

Modelling conventions:
* C hashmaps become association lists (`Hashmap α β := List (α × β)`); the
  source stores `Item*` pointers as hashmap values, which we represent by the
  stable identity `(ItemType, name)` of the item (names and types of items are
  never mutated after creation), resolved through the declared-item maps.
* Numeric ids (`uid_t`, `gid_t`) become `Nat`.
* C int return codes become `Int` (negative = `-errno`, as in the source).
* Reads of the environment (NSS, shadow, `stat`, `SYSTEM_UID_MAX`,
  `LOGIN_NAME_MAX`, specifier values) are parameters collected in `Config`;
  NSS calls return `Except Nat (Option _)` where `.error e` models
  "NULL result with `errno = e ≠ 0`".
* The filesystem contents relevant to the writer are an explicit `FS` value
  (entry lists for `/etc/passwd`, `/etc/group` and their `-` backups).
-/

/-- Association-list stand-in for the source's `Hashmap`. -/
abbrev Hashmap (α β : Type) := List (α × β)

/-- Lookup, as `hashmap_get` in the source (`NULL` becomes `none`). -/
def hashmap_get [DecidableEq α] : Hashmap α β → α → Option β
  | [], _ => none
  | (k, v) :: rest, a => if k = a then some v else hashmap_get rest a

/-- Membership test, as `hashmap_contains`. -/
def hashmap_contains [DecidableEq α] (h : Hashmap α β) (a : α) : Bool :=
  (hashmap_get h a).isSome

/-- Errno values used by the source (positive, as in `<errno.h>`). -/
def EEXIST : Int := 17
/-- Errno for the "shadow entry without passwd entry" bad-message failure. -/
def EBADMSG : Int := 74
/-- Errno returned on free-ID exhaustion. -/
def E2BIG : Int := 7
/-- Errno for validation failures. -/
def EINVAL : Int := 22
/-- Errno for config syntax errors (EIO in the source). -/
def EIOerr : Int := 5
/-- Errno reported by `log_oom`. -/
def ENOMEM : Int := 12

/-- Insertion, as the source's `hashmap_put`: fails with `-EEXIST` when the
key is already present, otherwise appends. -/
def hashmap_put [DecidableEq α] (h : Hashmap α β) (a : α) (b : β) :
    Except Int (Hashmap α β) :=
  if hashmap_contains h a then .error (-EEXIST) else .ok (h ++ [(a, b)])

/-- Insertion with `-EEXIST` tolerated (first entry wins), the pattern used by
the database loaders (`load_user_database` / `load_group_database`). -/
def hashmap_put_keep [DecidableEq α] (h : Hashmap α β) (a : α) (b : β) :
    Hashmap α β :=
  if hashmap_contains h a then h else h ++ [(a, b)]

/-- Replace the value stored under a key (models mutation through the `Item*`
pointer stored in a hashmap); a missing key leaves the map unchanged. -/
def hashmap_update [DecidableEq α] : Hashmap α β → α → β → Hashmap α β
  | [], _, _ => []
  | (k, v) :: rest, a, b =>
      if k = a then (k, b) :: rest else (k, v) :: hashmap_update rest a b

/-- The two directive kinds of sysusers.c (`ItemType`). -/
inductive ItemType where
  | ADD_USER
  | ADD_GROUP
deriving DecidableEq

/-- A declared item (`struct Item` in the source). -/
structure Item where
  type : ItemType
  name : String
  uid_path : Option String := none
  gid_path : Option String := none
  description : Option String := none
  gid : Nat := 0
  uid : Nat := 0
  gid_set : Bool := false
  uid_set : Bool := false
  todo : Bool := false
deriving DecidableEq

/-- Stable identity of an item: its kind and its name.  The source stores
`Item*` pointers in the pending hashmaps; since an item's `type` and `name`
are never written after creation, this pair is a faithful stand-in for the
pointer, resolved against the declared-item maps. -/
abbrev ItemId := ItemType × String

/-- An `/etc/passwd` entry (`struct passwd`). -/
structure PwEnt where
  name : String
  passwd : String := "x"
  uid : Nat
  gid : Nat
  gecos : String := ""
  dir : String := "/"
  shell : String := "/sbin/nologin"
deriving DecidableEq

/-- An `/etc/group` entry (`struct group`). -/
structure GrEnt where
  name : String
  passwd : String := "x"
  gid : Nat
  members : List String := []
deriving DecidableEq

/-- The name-service probe (getpwnam/getpwuid/getgrnam/getgrgid/getspnam).
`.error e` models a NULL result with `errno = e` set (`e ≠ 0` in any real
execution; theorems that need this carry `Nss.WF`). -/
structure Nss where
  getpwnam : String → Except Nat (Option PwEnt)
  getpwuid : Nat → Except Nat (Option PwEnt)
  getgrnam : String → Except Nat (Option GrEnt)
  getgrgid : Nat → Except Nat (Option GrEnt)
  getspnam : String → Except Nat (Option Unit)

/-- Well-formedness of the probe: reported errno values are nonzero. -/
def Nss.WF (n : Nss) : Prop :=
  (∀ s e, n.getpwnam s = .error e → 0 < e) ∧
  (∀ u e, n.getpwuid u = .error e → 0 < e) ∧
  (∀ s e, n.getgrnam s = .error e → 0 < e) ∧
  (∀ u e, n.getgrgid u = .error e → 0 < e) ∧
  (∀ s e, n.getspnam s = .error e → 0 < e)

/-- Host / build-time environment of one run: the configured system-range
maxima, the `--root` argument, the probe, and `stat` results (owner uid and
group gid of a path).  `specifierPrintf` is the external `specifier_printf`
helper used by `parse_line`. -/
structure Config where
  sysUidMax : Nat
  sysGidMax : Nat
  loginNameMax : Nat
  argRoot : Option String
  nss : Nss
  statFile : String → Option (Nat × Nat)
  specifierPrintf : List Char → Except Int (List Char)

/-- The `fix_root` macro: prefix paths with the alternate root, if any. -/
def fix_root (cfg : Config) (p : String) : String :=
  match cfg.argRoot with
  | some r => r ++ p
  | none => p

/-- The source's `root_stat`: `stat` under the alternate root; an error is
reported as `none` (callers only test `>= 0`). -/
def root_stat (cfg : Config) (p : String) : Option (Nat × Nat) :=
  cfg.statFile (fix_root cfg p)

/-- Process-wide mutable state of one run: the declared items, the pending
sets, the loaded databases and the two allocator cursors. -/
structure RunState where
  users : Hashmap String Item
  groups : Hashmap String Item
  todoUids : Hashmap Nat ItemId
  todoGids : Hashmap Nat ItemId
  dbUser : Hashmap String Nat
  dbUid : Hashmap Nat String
  dbGroup : Hashmap String Nat
  dbGid : Hashmap Nat String
  searchUid : Nat
  searchGid : Nat
deriving DecidableEq

/-- Resolve an item identity against the declared maps (dereference of the
`Item*` pointer stored in a pending set). -/
def getItem (st : RunState) (id : ItemId) : Option Item :=
  match id.1 with
  | .ADD_USER => hashmap_get st.users id.2
  | .ADD_GROUP => hashmap_get st.groups id.2

/-- Write an updated item back into its declared map (the C code mutates the
item in place through the pointer). -/
def putItemBack (st : RunState) (id : ItemId) (i : Item) : RunState :=
  match id.1 with
  | .ADD_USER => { st with users := hashmap_update st.users id.2 i }
  | .ADD_GROUP => { st with groups := hashmap_update st.groups id.2 i }

/-- The contents of the account files: `none` models a missing file
(`ENOENT`).  Backups are the `<path>-` siblings written by `make_backup`. -/
structure FS where
  passwd : Option (List PwEnt)
  group : Option (List GrEnt)
  passwdBak : Option (List PwEnt)
  groupBak : Option (List GrEnt)
deriving DecidableEq

/-- The source's `uid_is_ok` (sysusers.c:453-496).  Returns `1` (free), `0`
(taken) or `-errno`. -/
def uid_is_ok (cfg : Config) (st : RunState) (uid : Nat) (name : String) : Int :=
  -- Let's see if we already have assigned the UID a second time (460)
  if (hashmap_get st.todoUids uid).isSome then 0
  -- a todo group with the same numeric id but a different name (465)
  else if (match hashmap_get st.todoGids uid with
           | some id => decide (id.2 ≠ name)
           | none => false) then 0
  -- the files directly (470)
  else if hashmap_contains st.dbUid uid then 0
  else if (match hashmap_get st.dbGid uid with
           | some n => decide (n ≠ name)
           | none => false) then 0
  else
    -- NSS, skipped under an alternate root (478)
    match cfg.argRoot with
    | some _ => 1
    | none =>
      match cfg.nss.getpwuid uid with
      | .error e => -(e : Int)
      | .ok (some _) => 0
      | .ok none =>
        match cfg.nss.getgrgid uid with
        | .error e => -(e : Int)
        | .ok (some g) => if g.name ≠ name then 0 else 1
        | .ok none => 1

/-- The source's `gid_is_ok` (sysusers.c:700-734).  Stricter than
`uid_is_ok`: no matching-name exception. -/
def gid_is_ok (cfg : Config) (st : RunState) (gid : Nat) : Int :=
  if (hashmap_get st.todoGids gid).isSome then 0
  else if (hashmap_get st.todoUids gid).isSome then 0
  else if hashmap_contains st.dbGid gid then 0
  else if hashmap_contains st.dbUid gid then 0
  else
    match cfg.argRoot with
    | some _ => 1
    | none =>
      match cfg.nss.getgrgid gid with
      | .error e => -(e : Int)
      | .ok (some _) => 0
      | .ok none =>
        match cfg.nss.getpwuid gid with
        | .error e => -(e : Int)
        | .ok (some _) => 0
        | .ok none => 1

/-- The source's `read_id_from_file` (sysusers.c:508-564).  `wantUid` /
`wantGid` model the nullability of the two out-parameters; the result is
`(r, uid?, gid?)` where the options are the written out-values. -/
def read_id_from_file (cfg : Config) (i : Item) (wantUid wantGid : Bool) :
    Int × Option Nat × Option Nat :=
  -- First, try to get the gid directly (517)
  let g1 : Option Nat :=
    if wantGid then
      match i.gid_path with
      | some p => (root_stat cfg p).map (·.2)
      | none => none
    else none
  -- Then, try to get the uid directly (523); if the gid is still needed,
  -- derive it from the uid path as well (531)
  let ug2 : Option Nat × Option Nat :=
    if wantUid || (wantGid && !g1.isSome) then
      match i.uid_path with
      | some p =>
        match root_stat cfg p with
        | some s => (some s.1, if wantGid && !g1.isSome then some s.2 else g1)
        | none => (none, g1)
      | none => (none, g1)
    else (none, g1)
  -- If that didn't work yet, reuse the gid as uid (537)
  let u3 : Option Nat :=
    if wantUid && !ug2.1.isSome then
      match i.gid_path with
      | some p =>
        if ug2.2.isSome then ug2.2
        else match root_stat cfg p with
             | some s => some s.2
             | none => none
      | none => none
    else ug2.1
  if wantUid && !u3.isSome then (0, none, none)
  else if wantGid && !ug2.2.isSome then (0, u3, none)
  else (1, if wantUid then u3 else none, if wantGid then ug2.2 else none)

/-- The free-UID scan loop of `add_user` (sysusers.c:665-673):
`for (; search_uid > 0; search_uid--)` testing `uid_is_ok`.  The argument is
the current cursor; the result is the loop's return code (`<0` error, `>0`
found, `0` only on exhaustion) together with the cursor when the loop left. -/
def uid_scan (cfg : Config) (st : RunState) (name : String) : Nat → Int × Nat
  | 0 => (0, 0)
  | k + 1 =>
    let r := uid_is_ok cfg st (k + 1) name
    if r < 0 then (r, k + 1)
    else if r > 0 then (r, k + 1)
    else uid_scan cfg st name k

/-- The free-GID scan loop of `add_group` (sysusers.c:819-826). -/
def gid_scan (cfg : Config) (st : RunState) : Nat → Int × Nat
  | 0 => (0, 0)
  | k + 1 =>
    let r := gid_is_ok cfg st (k + 1)
    if r < 0 then (r, k + 1)
    else if r > 0 then (r, k + 1)
    else gid_scan cfg st k

/-- Final stage of `add_user` (sysusers.c:686-697): record the item in
`todo_uids` and mark it pending.  A put failure is reported as `log_oom`. -/
def add_user_put (st : RunState) (i : Item) :
    Int × RunState × Item :=
  match hashmap_put st.todoUids i.uid (i.type, i.name) with
  | .error _ => (-ENOMEM, st, i)
  | .ok m => (0, { st with todoUids := m }, { i with todo := true })

/-- Free-ID search stage of `add_user` (sysusers.c:663-684). -/
def add_user_scan (cfg : Config) (st : RunState) (i : Item) :
    Int × RunState × Item :=
  if i.uid_set then add_user_put st i
  else
    let rv := uid_scan cfg st i.name st.searchUid
    if rv.1 < 0 then (rv.1, { st with searchUid := rv.2 }, i)
    else if rv.2 = 0 then (-E2BIG, { st with searchUid := rv.2 }, i)
    else add_user_put { st with searchUid := rv.2 - 1 }
           { i with uid := rv.2, uid_set := true }

/-- Reuse-the-group-ID stage of `add_user` (sysusers.c:650-661). -/
def add_user_gid (cfg : Config) (st : RunState) (i : Item) :
    Int × RunState × Item :=
  if !i.uid_set && i.gid_set then
    let r := uid_is_ok cfg st i.gid i.name
    if r < 0 then (r, st, i)
    else if r > 0 then add_user_scan cfg st { i with uid := i.gid, uid_set := true }
    else add_user_scan cfg st i
  else add_user_scan cfg st i

/-- Path-inherited-hint stage of `add_user` (sysusers.c:628-648).  Note that
in `add_user` this stage comes before the reuse-the-group-ID stage. -/
def add_user_path (cfg : Config) (st : RunState) (i : Item) :
    Int × RunState × Item :=
  if i.uid_set then add_user_gid cfg st i
  else
    match read_id_from_file cfg i true false with
    | (r, some c, _) =>
      if r > 0 then
        if c = 0 || c > cfg.sysUidMax then add_user_gid cfg st i
        else
          let k := uid_is_ok cfg st c i.name
          if k < 0 then (k, st, i)
          else if k > 0 then add_user_gid cfg st { i with uid := c, uid_set := true }
          else add_user_gid cfg st i
      else add_user_gid cfg st i
    | (_, none, _) => add_user_gid cfg st i

/-- Literal-hint stage of `add_user` (sysusers.c:615-626). -/
def add_user_hint (cfg : Config) (st : RunState) (i : Item) :
    Int × RunState × Item :=
  if i.uid_set then
    let r := uid_is_ok cfg st i.uid i.name
    if r < 0 then (r, st, i)
    else if r = 0 then add_user_path cfg st { i with uid_set := false }
    else add_user_path cfg st i
  else add_user_path cfg st i

/-- The source's `add_user` (sysusers.c:566-698).  Returns the C return code
together with the updated global state and the updated item (the C code
mutates the item through its pointer). -/
def add_user (cfg : Config) (st : RunState) (i : Item) :
    Int × RunState × Item :=
  -- Check the database directly (573)
  match hashmap_get st.dbUser i.name with
  | some u => (0, st, { i with uid := u, uid_set := true })
  | none =>
    match cfg.argRoot with
    | some _ => add_user_hint cfg st i
    | none =>
      -- Also check NSS (586)
      match cfg.nss.getpwnam i.name with
      | .error e => (-(e : Int), st, i)
      | .ok (some p) =>
        (0, st, { i with uid := p.uid, uid_set := true, description := some p.gecos })
      | .ok none =>
        -- And shadow too, just to be sure (603)
        match cfg.nss.getspnam i.name with
        | .error e => (-(e : Int), st, i)
        | .ok (some _) => (-EBADMSG, st, i)
        | .ok none => add_user_hint cfg st i

/-- Final stage of `add_group` (sysusers.c:839-850). -/
def add_group_put (st : RunState) (i : Item) :
    Int × RunState × Item :=
  match hashmap_put st.todoGids i.gid (i.type, i.name) with
  | .error _ => (-ENOMEM, st, i)
  | .ok m => (0, { st with todoGids := m }, { i with todo := true })

/-- Free-ID search stage of `add_group` (sysusers.c:817-837). -/
def add_group_scan (cfg : Config) (st : RunState) (i : Item) :
    Int × RunState × Item :=
  if i.gid_set then add_group_put st i
  else
    let rv := gid_scan cfg st st.searchGid
    if rv.1 < 0 then (rv.1, { st with searchGid := rv.2 }, i)
    else if rv.2 = 0 then (-E2BIG, { st with searchGid := rv.2 }, i)
    else add_group_put { st with searchGid := rv.2 - 1 }
           { i with gid := rv.2, gid_set := true }

/-- Path-inherited-hint stage of `add_group` (sysusers.c:795-815). -/
def add_group_path (cfg : Config) (st : RunState) (i : Item) :
    Int × RunState × Item :=
  if i.gid_set then add_group_scan cfg st i
  else
    match read_id_from_file cfg i false true with
    | (r, _, some c) =>
      if r > 0 then
        if c = 0 || c > cfg.sysGidMax then add_group_scan cfg st i
        else
          let k := gid_is_ok cfg st c
          if k < 0 then (k, st, i)
          else if k > 0 then add_group_scan cfg st { i with gid := c, gid_set := true }
          else add_group_scan cfg st i
      else add_group_scan cfg st i
    | (_, _, none) => add_group_scan cfg st i

/-- Reuse-the-numeric-uid stage of `add_group` (sysusers.c:782-793).  Note
that in `add_group` this stage comes before the path-hint stage. -/
def add_group_uid (cfg : Config) (st : RunState) (i : Item) :
    Int × RunState × Item :=
  if !i.gid_set && i.uid_set then
    let r := gid_is_ok cfg st i.uid
    if r < 0 then (r, st, i)
    else if r > 0 then add_group_path cfg st { i with gid := i.uid, gid_set := true }
    else add_group_path cfg st i
  else add_group_path cfg st i

/-- Literal-hint stage of `add_group` (sysusers.c:769-780). -/
def add_group_hint (cfg : Config) (st : RunState) (i : Item) :
    Int × RunState × Item :=
  if i.gid_set then
    let r := gid_is_ok cfg st i.gid
    if r < 0 then (r, st, i)
    else if r = 0 then add_group_uid cfg st { i with gid_set := false }
    else add_group_uid cfg st i
  else add_group_uid cfg st i

/-- The source's `add_group` (sysusers.c:736-851). -/
def add_group (cfg : Config) (st : RunState) (i : Item) :
    Int × RunState × Item :=
  -- Check the database directly (743)
  match hashmap_get st.dbGroup i.name with
  | some g => (0, st, { i with gid := g, gid_set := true })
  | none =>
    match cfg.argRoot with
    | some _ => add_group_hint cfg st i
    | none =>
      -- Also check NSS (752)
      match cfg.nss.getgrnam i.name with
      | .error e => (-(e : Int), st, i)
      | .ok (some g) => (0, st, { i with gid := g.gid, gid_set := true })
      | .ok none => add_group_hint cfg st i

/-- The folding of a standalone group declaration into an already-declared
user item of the same name (sysusers.c:870-888): the group's resolved gid
and gid path are copied into the user item. -/
def fold_group_into_user (i j : Item) : Item :=
  let j1 := if i.gid_set then { j with gid := i.gid, gid_set := true } else j
  match i.gid_path with
  | some p => { j1 with gid_path := some p }
  | none => j1

/-- The source's `process_item` (sysusers.c:853-895), acting on the item
identified by `id`; the updated item is written back into its declared map
(the C code mutates it in place). -/
def process_item (cfg : Config) (st : RunState) (id : ItemId) : Int × RunState :=
  match getItem st id with
  | none => (0, st)
  | some i =>
    match i.type with
    | .ADD_USER =>
      let rg := add_group cfg st i
      let st1 := putItemBack rg.2.1 id rg.2.2
      if rg.1 < 0 then (rg.1, st1)
      else
        let ru := add_user cfg st1 rg.2.2
        (ru.1, putItemBack ru.2.1 id ru.2.2)
    | .ADD_GROUP =>
      -- fold a standalone group into an already-declared user (870)
      match hashmap_get st.users i.name with
      | some j =>
        (0, { st with users := hashmap_update st.users i.name (fold_group_into_user i j) })
      | none =>
        let rg := add_group cfg st i
        (rg.1, putItemBack rg.2.1 id rg.2.2)

/-- The reconciliation loops of `main` (sysusers.c:1350-1354): process a list
of items in order, discarding the return value of `process_item` exactly as
the source does. -/
def runIds (cfg : Config) (st : RunState) (ids : List ItemId) : RunState :=
  ids.foldl (fun s id => (process_item cfg s id).2) st

/-- Item identities processed by `main`: all declared groups, then all
declared users. -/
def mainIds (st : RunState) : List ItemId :=
  st.groups.map (fun p => (ItemType.ADD_GROUP, p.1)) ++
    st.users.map (fun p => (ItemType.ADD_USER, p.1))

/-- Group-file copy loop of `write_files` (sysusers.c:272-298): copy existing
entries verbatim, aborting with `-EEXIST` when an entry's name belongs to a
declared group item marked pending, or its GID is a key of `todo_gids`. -/
def copy_group_entries (st : RunState) : List GrEnt → Except Int (List GrEnt)
  | [] => .ok []
  | gr :: rest =>
    match hashmap_get st.groups gr.name with
    | some i =>
      if i.todo then .error (-EEXIST)
      else if hashmap_contains st.todoGids gr.gid then .error (-EEXIST)
      else (gr :: ·) <$> copy_group_entries st rest
    | none =>
      if hashmap_contains st.todoGids gr.gid then .error (-EEXIST)
      else (gr :: ·) <$> copy_group_entries st rest

/-- Passwd-file copy loop of `write_files` (sysusers.c:341-368). -/
def copy_passwd_entries (st : RunState) : List PwEnt → Except Int (List PwEnt)
  | [] => .ok []
  | pw :: rest =>
    match hashmap_get st.users pw.name with
    | some i =>
      if i.todo then .error (-EEXIST)
      else if hashmap_contains st.todoUids pw.uid then .error (-EEXIST)
      else (pw :: ·) <$> copy_passwd_entries st rest
    | none =>
      if hashmap_contains st.todoUids pw.uid then .error (-EEXIST)
      else (pw :: ·) <$> copy_passwd_entries st rest

/-- The new group lines appended by `write_files` (sysusers.c:309-320):
name, password `"x"`, the item's gid, empty member list. -/
def todo_group_lines (st : RunState) : List GrEnt :=
  st.todoGids.filterMap fun p =>
    (getItem st p.2).map fun i => { name := i.name, passwd := "x", gid := i.gid, members := [] }

/-- The new passwd lines appended by `write_files` (sysusers.c:375-399):
shell/home default to `/sbin/nologin` and `/`, except UID 0 which gets
`/bin/sh` and `/root`. -/
def todo_passwd_lines (st : RunState) : List PwEnt :=
  st.todoUids.filterMap fun p =>
    (getItem st p.2).map fun i =>
      { name := i.name, passwd := "x", uid := i.uid, gid := i.gid,
        gecos := i.description.getD "",
        dir := if i.uid = 0 then "/root" else "/",
        shell := if i.uid = 0 then "/bin/sh" else "/sbin/nologin" }

/-- The source's `write_files` (sysusers.c:242-451).  Produces the C return
code and the resulting filesystem: temp files are written (building the new
contents), then backups are taken, then the temp files are renamed over the
targets.  On any error the temp files are unlinked and the filesystem is
returned unchanged. -/
def write_files (st : RunState) (fs : FS) : Int × FS :=
  -- group table, only when pending gids exist (254)
  let groupRes : Except Int (Option (List GrEnt)) :=
    if st.todoGids.length > 0 then
      match fs.group with
      | some ents =>
        match copy_group_entries st ents with
        | .error r => .error r
        | .ok copied => .ok (some (copied ++ todo_group_lines st))
      | none => .ok (some (todo_group_lines st))   -- fopen ENOENT (304)
    else .ok none
  match groupRes with
  | .error r => (r, fs)
  | .ok gNew =>
    -- passwd table, only when pending uids exist (327)
    let passwdRes : Except Int (Option (List PwEnt)) :=
      if st.todoUids.length > 0 then
        match fs.passwd with
        | some ents =>
          match copy_passwd_entries st ents with
          | .error r => .error r
          | .ok copied => .ok (some (copied ++ todo_passwd_lines st))
        | none => .ok (some (todo_passwd_lines st))
      else .ok none
    match passwdRes with
    | .error r => (r, fs)
    | .ok pNew =>
      -- make a backup of the old files (406); make_backup is a no-op on ENOENT
      let fs1 := match gNew with
                 | some _ => { fs with groupBak := if fs.group.isSome then fs.group else fs.groupBak }
                 | none => fs
      let fs2 := match pNew with
                 | some _ => { fs1 with passwdBak := if fs.passwd.isSome then fs.passwd else fs1.passwdBak }
                 | none => fs1
      -- and make the new files count (419)
      let fs3 := match gNew with
                 | some g => { fs2 with group := some g }
                 | none => fs2
      let fs4 := match pNew with
                 | some p => { fs3 with passwd := some p }
                 | none => fs3
      (0, fs4)

/-- The source's `load_user_database` (sysusers.c:86-136): a missing file is
an empty database; duplicate names or uids keep the first entry. -/
def load_user_database (fs : FS) : Hashmap String Nat × Hashmap Nat String :=
  match fs.passwd with
  | none => ([], [])
  | some ents =>
    ents.foldl
      (fun m pw => (hashmap_put_keep m.1 pw.name pw.uid, hashmap_put_keep m.2 pw.uid pw.name))
      ([], [])

/-- The source's `load_group_database` (sysusers.c:138-188). -/
def load_group_database (fs : FS) : Hashmap String Nat × Hashmap Nat String :=
  match fs.group with
  | none => ([], [])
  | some ents =>
    ents.foldl
      (fun m gr => (hashmap_put_keep m.1 gr.name gr.gid, hashmap_put_keep m.2 gr.gid gr.name))
      ([], [])

/-- State at the start of the post-lock section of `main`: declared items from
the parser, freshly loaded databases, empty pending sets, cursors at the top
of the system ranges (sysusers.c:75-76). -/
def init_state (cfg : Config) (declUsers declGroups : Hashmap String Item) (fs : FS) :
    RunState :=
  let du := load_user_database fs
  let dg := load_group_database fs
  { users := declUsers, groups := declGroups,
    todoUids := [], todoGids := [],
    dbUser := du.1, dbUid := du.2, dbGroup := dg.1, dbGid := dg.2,
    searchUid := cfg.sysUidMax, searchGid := cfg.sysGidMax }

/-- The post-lock section of `main` (sysusers.c:1338-1377): load both
databases, process all groups then all users — discarding each
`process_item` return value, exactly as the source does — then `write_files`.
The first component is the process exit status (`EXIT_SUCCESS = 0`,
`EXIT_FAILURE = 1`, from `r < 0 ? EXIT_FAILURE : EXIT_SUCCESS`). -/
def main_run (cfg : Config) (declUsers declGroups : Hashmap String Item) (fs : FS) :
    Nat × FS :=
  let st0 := init_state cfg declUsers declGroups fs
  let stFin := runIds cfg st0 (mainIds st0)
  let wr := write_files stFin fs
  (if wr.1 < 0 then 1 else 0, wr.2)

/-- Whitespace for `sscanf` conversions (C `isspace`). -/
def isWsScanf (c : Char) : Bool :=
  c = ' ' || c = '\t' || c = '\n' || c = '\r' || c = '\x0b' || c = '\x0c'

/-- Whitespace for the source's `WHITESPACE` (`" \t\n\r"`), used by `strspn`
at sysusers.c:1045. -/
def isWsConf (c : Char) : Bool :=
  c = ' ' || c = '\t' || c = '\n' || c = '\r'

/-- One `%ms` conversion: skip whitespace, then read a nonempty token; `none`
models conversion failure at end of input. -/
def matchTok (s : List Char) : Option (List Char × List Char) :=
  let s1 := s.dropWhile isWsScanf
  let t := s1.takeWhile (fun c => !isWsScanf c)
  if t.isEmpty then none else some (t, s1.dropWhile (fun c => !isWsScanf c))

/-- The `sscanf(buffer, "%ms %ms %ms %n", ...)` call of `parse_line`
(sysusers.c:1006-1011): the conversion count, the three tokens, and the `%n`
byte position (assigned only when all three conversions succeed). -/
def sscanf3 (buf : List Char) :
    Nat × Option (List Char) × Option (List Char) × Option (List Char) × Option Nat :=
  match matchTok buf with
  | none => (0, none, none, none, none)
  | some (a, r1) =>
    match matchTok r1 with
    | none => (1, some a, none, none, none)
    | some (b, r2) =>
      match matchTok r2 with
      | none => (2, some a, some b, none, none)
      | some (c, r3) =>
        let r4 := r3.dropWhile isWsScanf
        (3, some a, some b, some c, some (buf.length - r4.length))

/-- The source's `valid_user_group_name` (sysusers.c:945-973).  (The
`isempty(u) < 0` comparison in the source is always false; the empty string
is instead rejected by the first-character check, which this match mirrors.)
`sysconf(_SC_LOGIN_NAME_MAX)` is the `loginNameMax` configuration value. -/
def valid_user_group_name (cfg : Config) (u : List Char) : Bool :=
  match u with
  | [] => false
  | c :: rest =>
    (('a' ≤ c && c ≤ 'z') || ('A' ≤ c && c ≤ 'Z') || c = '_') &&
    rest.all (fun d =>
      ('a' ≤ d && d ≤ 'z') || ('A' ≤ d && d ≤ 'Z') ||
      ('0' ≤ d && d ≤ '9') || d = '_' || d = '-') &&
    decide (u.length ≤ cfg.loginNameMax)

/-- Modelled from the spec: `utf8_is_valid` (utf8.c, not in src/) always
holds for Lean strings, so `valid_gecos` (sysusers.c:975-984) reduces to the
`strpbrk(d, ":\n")` check. -/
def valid_gecos (d : List Char) : Bool :=
  !(d.contains ':' || d.contains '\n')

/-- Modelled from the spec: `unquote` (util.c, not in src/) strips one
matching pair of double quotes around the field ("may be quoted with a double
quote"). -/
def unquote (s : List Char) : List Char :=
  if 2 ≤ s.length && s.head? = some '"' && s.getLast? = some '"' then
    (s.drop 1).dropLast
  else s

/-- Modelled from the spec: `path_is_absolute` (path-util.c, not in src/): the
path starts with a slash. -/
def path_is_absolute (s : List Char) : Bool :=
  s.head? = some '/'

/-- Modelled from the spec: `path_kill_slashes` (path-util.c, not in src/)
collapses runs of consecutive slashes. -/
def path_kill_slashes : List Char → List Char
  | '/' :: '/' :: rest => path_kill_slashes ('/' :: rest)
  | c :: rest => c :: path_kill_slashes rest
  | [] => []
  termination_by l => l.length

/-- Modelled from the spec: `parse_uid` / `parse_gid` (util.c, not in src/)
parse a literal decimal number; anything else is an error. -/
def parse_uid (s : List Char) : Except Int Nat :=
  if s ≠ [] && s.all (fun c => '0' ≤ c && c ≤ '9') then
    .ok (s.foldl (fun n c => n * 10 + (c.toNat - '0'.toNat)) 0)
  else .error (-EINVAL)

/-- The source's `parse_line` (sysusers.c:986-1125) up to and including the
construction of the item; the final registration into the `users`/`groups`
hashmaps (1096-1124) depends only on the returned item and is not needed by
the theorems below. -/
def parse_line (cfg : Config) (buf : List Char) : Except Int Item :=
  match sscanf3 buf with
  | (r, action?, name?, id?, n?) =>
    if r < 2 then .error (-EIOerr)   -- Syntax error (1013)
    else
      match action?, name? with
      | some action, some nameTok =>
        if action.length ≠ 1 then .error (-EINVAL)     -- Unknown modifier (1018)
        else if action ≠ ['u'] && action ≠ ['g'] then .error (-EBADMSG)  -- (1023)
        else
          let ty : ItemType := if action = ['u'] then .ADD_USER else .ADD_GROUP
          match cfg.specifierPrintf nameTok with      -- (1033)
          | .error r => .error r
          | .ok nm =>
            if !valid_user_group_name cfg nm then .error (-EINVAL)  -- (1039)
            else
              -- description (1044-1056)
              let desc? : Except Int (Option String) :=
                match n? with
                | none => .ok none
                | some n =>
                  let n2 := n + ((buf.drop n).takeWhile isWsConf).length
                  let restD := buf.drop n2
                  if restD ≠ [] && !(restD.head? = some '-' && restD.length = 1) then
                    let d := unquote restD
                    if !valid_gecos d then .error (-EINVAL)
                    else .ok (some (String.mk d))
                  else .ok none
              match desc? with
              | .error r => .error r
              | .ok desc =>
                let base : Item := { type := ty, name := String.mk nm, description := desc }
                -- id field (1058-1094)
                match id? with
                | none => .ok base
                | some idTok =>
                  if idTok = ['-'] then .ok base
                  else if path_is_absolute idTok then
                    let p := String.mk (path_kill_slashes idTok)
                    if ty = .ADD_USER then .ok { base with uid_path := some p }
                    else .ok { base with gid_path := some p }
                  else
                    match parse_uid idTok with
                    | .error _ => .error (-EBADMSG)   -- (1078, 1088)
                    | .ok v =>
                      if ty = .ADD_USER then .ok { base with uid := v, uid_set := true }
                      else .ok { base with gid := v, gid_set := true }
      | _, _ => .error (-EIOerr)

/-! ## Concrete fixtures used by witnesses and counterexamples -/

/-- A probe that observes nothing, without errors. -/
def nssEmpty : Nss :=
  { getpwnam := fun _ => .ok none, getpwuid := fun _ => .ok none,
    getgrnam := fun _ => .ok none, getgrgid := fun _ => .ok none,
    getspnam := fun _ => .ok none }

/-- The empty-probe fixture is well-formed. -/
theorem nssEmpty_wf : nssEmpty.WF := by
  refine ⟨?_, ?_, ?_, ?_, ?_⟩ <;> intro _ e h <;> simp [nssEmpty] at h

/-- A small host configuration with an alternate root (probe bypassed) and a
system range of `(0, 3]`. -/
def cfgRoot3 : Config :=
  { sysUidMax := 3, sysGidMax := 3, loginNameMax := 31,
    argRoot := some "", nss := nssEmpty, statFile := fun _ => none,
    specifierPrintf := fun s => .ok s }

/-- An empty run state (no declarations, empty databases, cursors at 3). -/
def stEmpty3 : RunState :=
  { users := [], groups := [], todoUids := [], todoGids := [],
    dbUser := [], dbUid := [], dbGroup := [], dbGid := [],
    searchUid := 3, searchGid := 3 }

/-! ## C3: the `uid_is_ok` free conditions -/

/-- A negated errno is never the "free" return value `1`. -/
theorem neg_errno_ne_one {e : Nat} (he : 0 < e) : -(e : Int) ≠ 1 := by omega

/-- Claim C3: `uid_is_ok(uid, name)` returns Free (`1`) iff all five
conditions hold: `uid` is not a pending UID; `uid` as a GID is absent from
the pending GIDs or its holder has the same name; `uid` is not a UID of the
loaded user database; `uid` as a GID is absent from the loaded group database
or the existing group has the same name; and, when the probe is enabled (no
alternate root), the probe returns no user for `uid` and any group it returns
for that numeric value has the same name. -/
theorem uid_is_ok_free_iff (cfg : Config) (st : RunState) (uid : Nat) (name : String)
    (hw : cfg.nss.WF) :
    uid_is_ok cfg st uid name = 1 ↔
      (hashmap_get st.todoUids uid = none ∧
       (∀ id, hashmap_get st.todoGids uid = some id → id.2 = name) ∧
       hashmap_get st.dbUid uid = none ∧
       (∀ n, hashmap_get st.dbGid uid = some n → n = name) ∧
       (cfg.argRoot = none →
         cfg.nss.getpwuid uid = .ok none ∧
         (∃ og, cfg.nss.getgrgid uid = .ok og ∧ ∀ g, og = some g → g.name = name))) := by
  obtain ⟨-, hpw, -, hgr, -⟩ := hw
  unfold uid_is_ok
  split
  · next h1 =>
    simp only [Option.isSome_iff_exists] at h1
    obtain ⟨v, hv⟩ := h1
    simp [hv]
  · next h1 =>
    have e1 : hashmap_get st.todoUids uid = none := by
      cases hg : hashmap_get st.todoUids uid with
      | none => rfl
      | some v => rw [hg] at h1; simp at h1
    split
    · next h2 =>
      constructor
      · intro h; omega
      · rintro ⟨-, h2', -⟩
        revert h2
        cases hg : hashmap_get st.todoGids uid with
        | none => simp
        | some id => simp [h2' id hg]
    · next h2 =>
      have e2 : ∀ id, hashmap_get st.todoGids uid = some id → id.2 = name := by
        intro id hg; rw [hg] at h2; simpa using h2
      split
      · next h3 =>
        simp only [hashmap_contains, Option.isSome_iff_exists] at h3
        obtain ⟨v, hv⟩ := h3
        simp [hv]
      · next h3 =>
        have e3 : hashmap_get st.dbUid uid = none := by
          cases hg : hashmap_get st.dbUid uid with
          | none => rfl
          | some v => exact absurd (by simp [hashmap_contains, hg]) h3
        split
        · next h4 =>
          constructor
          · intro h; omega
          · rintro ⟨-, -, -, h4', -⟩
            revert h4
            cases hg : hashmap_get st.dbGid uid with
            | none => simp
            | some n => simp [h4' n hg]
        · next h4 =>
          have e4 : ∀ n, hashmap_get st.dbGid uid = some n → n = name := by
            intro n hg; rw [hg] at h4; simpa using h4
          cases har : cfg.argRoot with
          | some r =>
            constructor
            · intro _
              refine ⟨e1, e2, e3, e4, fun h => ?_⟩
              simp at h
            · intro _; rfl
          | none =>
            cases hp : cfg.nss.getpwuid uid with
            | error e =>
              have he := hpw uid e hp
              constructor
              · intro h; exact absurd h (neg_errno_ne_one he)
              · rintro ⟨-, -, -, -, h5⟩
                have h6 := (h5 (by simp [har])).1
                simp [hp] at h6
            | ok op =>
              cases op with
              | some p =>
                constructor
                · intro h; exact absurd h (by simp)
                · rintro ⟨-, -, -, -, h5⟩
                  have h6 := (h5 (by simp [har])).1
                  simp [hp] at h6
              | none =>
                cases hg : cfg.nss.getgrgid uid with
                | error e =>
                  have he := hgr uid e hg
                  constructor
                  · intro h; exact absurd h (neg_errno_ne_one he)
                  · rintro ⟨-, -, -, -, h5⟩
                    obtain ⟨og, hog, -⟩ := (h5 (by simp [har])).2
                    simp [hg] at hog
                | ok og =>
                  cases og with
                  | none =>
                    constructor
                    · intro _
                      refine ⟨e1, e2, e3, e4, fun _ => ⟨by simp [hp], none, by simp [hg], ?_⟩⟩
                      intro g h; simp at h
                    · intro _; rfl
                  | some g =>
                    by_cases hn : g.name = name
                    · constructor
                      · intro _
                        refine ⟨e1, e2, e3, e4, fun _ => ⟨by simp [hp], some g, by simp [hg], ?_⟩⟩
                        intro g' h
                        cases h
                        exact hn
                      · intro _
                        simp [hn]
                    · constructor
                      · intro h
                        exact absurd h (by simp [hn])
                      · rintro ⟨-, -, -, -, h5⟩
                        obtain ⟨og, hog, hall⟩ := (h5 (by simp [har])).2
                        have hsg : og = some g := by
                          simpa using hog.symm
                        exact absurd (hall g hsg) hn

/-- Witness for C3: on a concrete free uid the five conditions and the Free
verdict coincide. -/
theorem uid_is_ok_free_iff_witness :
    uid_is_ok cfgRoot3 stEmpty3 2 "svc" = 1 :=
  (uid_is_ok_free_iff cfgRoot3 stEmpty3 2 "svc" nssEmpty_wf).2
    ⟨rfl,
     fun id h => by simp [stEmpty3, hashmap_get] at h,
     rfl,
     fun n h => by simp [stEmpty3, hashmap_get] at h,
     fun h => by simp [cfgRoot3] at h⟩

/-! ## C4: the `gid_is_ok` taken conditions -/

/-- The numeric value is already held, in either role, by one of the four
namespaces (including the probe's views when the probe is enabled). -/
def gid_taken_somewhere (cfg : Config) (st : RunState) (gid : Nat) : Prop :=
  (hashmap_get st.todoGids gid).isSome = true ∨
  (hashmap_get st.todoUids gid).isSome = true ∨
  (hashmap_get st.dbGid gid).isSome = true ∨
  (hashmap_get st.dbUid gid).isSome = true ∨
  (cfg.argRoot = none ∧
    ((∃ g, cfg.nss.getgrgid gid = .ok (some g)) ∨
     (∃ p, cfg.nss.getpwuid gid = .ok (some p))))

/-- Claim C4: `gid_is_ok(gid)` returns Taken (`0`) precisely when one of the
four namespaces — the pending GIDs, the pending UIDs, the loaded group and
user databases, and (when the probe is enabled) the probe's group-by-id and
user-by-id views — already holds the numeric value, in either role, with no
name-based exception; it returns Free (`1`) only when none of them holds
it.  (The equivalence assumes the group-by-id probe call does not itself
fail, since such a failure is reported as an error, not as Taken.) -/
theorem gid_is_ok_taken_iff (cfg : Config) (st : RunState) (gid : Nat)
    (hw : cfg.nss.WF) (hge : ∀ e, cfg.nss.getgrgid gid ≠ .error e) :
    (gid_is_ok cfg st gid = 0 ↔ gid_taken_somewhere cfg st gid) ∧
    (gid_is_ok cfg st gid = 1 → ¬ gid_taken_somewhere cfg st gid) := by
  obtain ⟨-, hpw, -, -, -⟩ := hw
  have main : gid_is_ok cfg st gid = 0 ↔ gid_taken_somewhere cfg st gid := by
    unfold gid_is_ok gid_taken_somewhere
    split
    · next h1 => simp [h1]
    · next h1 =>
      split
      · next h2 => simp [h2]
      · next h2 =>
        split
        · next h3 => simp [hashmap_contains] at h3; simp [h3]
        · next h3 =>
          split
          · next h4 => simp [hashmap_contains] at h4; simp [h4]
          · next h4 =>
            simp only [hashmap_contains, Bool.not_eq_true] at *
            cases har : cfg.argRoot with
            | some r =>
              constructor
              · intro h; cases h
              · rintro (h | h | h | h | ⟨hr, -⟩) <;>
                  simp_all
            | none =>
              cases hg : cfg.nss.getgrgid gid with
              | error e => exact absurd hg (hge e)
              | ok og =>
                cases og with
                | some g =>
                  constructor
                  · intro _
                    exact Or.inr (Or.inr (Or.inr (Or.inr ⟨rfl, Or.inl ⟨g, by simp [hg]⟩⟩)))
                  · intro _; rfl
                | none =>
                  cases hp : cfg.nss.getpwuid gid with
                  | error e =>
                    have he := hpw gid e hp
                    constructor
                    · intro h
                      simp at h
                      omega
                    · rintro (h | h | h | h | ⟨-, (⟨g, hog⟩ | ⟨p, hop⟩)⟩)
                      · simp_all
                      · simp_all
                      · simp_all
                      · simp_all
                      · simp [hg] at hog
                      · simp [hp] at hop
                  | ok op =>
                    cases op with
                    | some p =>
                      constructor
                      · intro _
                        exact Or.inr (Or.inr (Or.inr (Or.inr ⟨rfl, Or.inr ⟨p, by simp [hp]⟩⟩)))
                      · intro _; rfl
                    | none =>
                      constructor
                      · intro h; cases h
                      · rintro (h | h | h | h | ⟨-, (⟨g, hog⟩ | ⟨p, hop⟩)⟩)
                        · simp_all
                        · simp_all
                        · simp_all
                        · simp_all
                        · simp [hg] at hog
                        · simp [hp] at hop
  refine ⟨main, fun h1 htaken => ?_⟩
  rw [← main] at htaken
  omega

/-- Witness for C4: a pending GID entry makes a concrete gid Taken. -/
theorem gid_is_ok_taken_iff_witness :
    gid_is_ok cfgRoot3 { stEmpty3 with todoGids := [(2, (ItemType.ADD_GROUP, "g1"))] } 2 = 0 :=
  (gid_is_ok_taken_iff cfgRoot3 _ 2 nssEmpty_wf (fun e h => by simp [cfgRoot3, nssEmpty] at h)).1.2
    (Or.inl rfl)

/-! ## C7: shadow entry without passwd entry aborts with EBADMSG -/

/-- Claim C7: for a user item processed with no alternate root, when the
shadow database has an entry for the name but the passwd database does not
(neither on disk nor via NSS), `add_user` fails with `-EBADMSG` and changes
neither the run state (in particular no pending entry is created) nor the
item. -/
theorem add_user_shadow_inconsistency (cfg : Config) (st : RunState) (i : Item)
    (h1 : hashmap_get st.dbUser i.name = none)
    (h2 : cfg.argRoot = none)
    (h3 : cfg.nss.getpwnam i.name = .ok none)
    (h4 : cfg.nss.getspnam i.name = .ok (some ())) :
    add_user cfg st i = (-EBADMSG, st, i) := by
  unfold add_user
  rw [h1, h2, h3, h4]

/-- Probe fixture for C7: the shadow database knows `ghost`, nothing else. -/
def nssShadowGhost : Nss :=
  { nssEmpty with getspnam := fun s => if s = "ghost" then .ok (some ()) else .ok none }

/-- Host fixture for C7: no alternate root, shadow-only `ghost` entry. -/
def cfgShadow : Config := { cfgRoot3 with argRoot := none, nss := nssShadowGhost }

/-- Witness for C7 at a concrete declared user `ghost`. -/
theorem add_user_shadow_inconsistency_witness :
    add_user cfgShadow stEmpty3 { type := .ADD_USER, name := "ghost" } =
      (-EBADMSG, stEmpty3, { type := .ADD_USER, name := "ghost" }) :=
  add_user_shadow_inconsistency cfgShadow stEmpty3 _ rfl rfl rfl (by rfl)

/-! ## C10: an NSS-existing user overwrites the declared description -/

/-- Claim C10: for a user item that the probe reports as already existing
(no alternate root, not in the loaded passwd database), `add_user` succeeds
without touching the run state — so no pending entry is created — but the
returned item has its `description` field replaced by the GECOS string of
the existing NSS entry (and its uid adopted from it). -/
theorem add_user_nss_overwrites_description (cfg : Config) (st : RunState) (i : Item)
    (p : PwEnt)
    (h1 : hashmap_get st.dbUser i.name = none)
    (h2 : cfg.argRoot = none)
    (h3 : cfg.nss.getpwnam i.name = .ok (some p)) :
    add_user cfg st i =
      (0, st, { i with uid := p.uid, uid_set := true, description := some p.gecos }) := by
  unfold add_user
  rw [h1, h2, h3]

/-- Probe fixture for C10: NSS already has user `u1` with GECOS
`"Existing"`. -/
def pwU1 : PwEnt := { name := "u1", uid := 42, gid := 42, gecos := "Existing" }

/-- Probe for C10: `u1` exists with that passwd entry. -/
def nssHasU1 : Nss :=
  { nssEmpty with getpwnam := fun s => if s = "u1" then .ok (some pwU1) else .ok none }

/-- Host fixture for C10. -/
def cfgHasU1 : Config := { cfgRoot3 with argRoot := none, nss := nssHasU1 }

/-- Witness for C10: the declared description `"Declared"` is replaced by the
NSS GECOS `"Existing"`, the state is unchanged, and the call succeeds. -/
theorem add_user_nss_overwrites_description_witness :
    add_user cfgHasU1 stEmpty3
        { type := .ADD_USER, name := "u1", description := some "Declared" } =
      (0, stEmpty3,
        { type := .ADD_USER, name := "u1", description := some "Existing",
          uid := 42, uid_set := true }) :=
  add_user_nss_overwrites_description cfgHasU1 stEmpty3 _ _ rfl rfl (by rfl)

/-! ## C2: a commit-time collision aborts and leaves the files untouched -/

/-- An existing group entry collides with the pending work: its name belongs
to a declared group item marked pending, or its GID is a key of the pending
GID set (the checks of sysusers.c:281-290). -/
def group_entry_collides (st : RunState) (gr : GrEnt) : Prop :=
  (∃ i, hashmap_get st.groups gr.name = some i ∧ i.todo = true) ∨
  hashmap_contains st.todoGids gr.gid = true

/-- An existing passwd entry collides with the pending work (the checks of
sysusers.c:347-356). -/
def passwd_entry_collides (st : RunState) (pw : PwEnt) : Prop :=
  (∃ i, hashmap_get st.users pw.name = some i ∧ i.todo = true) ∨
  hashmap_contains st.todoUids pw.uid = true

/-- The group copy loop can only fail with `-EEXIST`. -/
theorem copy_group_entries_error_eq (st : RunState) (ents : List GrEnt) (r : Int)
    (h : copy_group_entries st ents = .error r) : r = -EEXIST := by
  induction ents with
  | nil => simp [copy_group_entries] at h
  | cons gr rest ih =>
    unfold copy_group_entries at h
    split at h
    · split at h
      · injection h with h2; exact h2.symm
      · split at h
        · injection h with h2; exact h2.symm
        · cases hcp : copy_group_entries st rest with
          | error r2 =>
            rw [hcp] at h
            simp only [Functor.map, Except.map] at h
            injection h with h2
            subst h2
            exact ih hcp
          | ok l =>
            rw [hcp] at h
            simp [Functor.map, Except.map] at h
    · split at h
      · injection h with h2; exact h2.symm
      · cases hcp : copy_group_entries st rest with
        | error r2 =>
          rw [hcp] at h
          simp only [Functor.map, Except.map] at h
          injection h with h2
          subst h2
          exact ih hcp
        | ok l =>
          rw [hcp] at h
          simp [Functor.map, Except.map] at h

/-- The passwd copy loop can only fail with `-EEXIST`. -/
theorem copy_passwd_entries_error_eq (st : RunState) (ents : List PwEnt) (r : Int)
    (h : copy_passwd_entries st ents = .error r) : r = -EEXIST := by
  induction ents with
  | nil => simp [copy_passwd_entries] at h
  | cons pw rest ih =>
    unfold copy_passwd_entries at h
    split at h
    · split at h
      · injection h with h2; exact h2.symm
      · split at h
        · injection h with h2; exact h2.symm
        · cases hcp : copy_passwd_entries st rest with
          | error r2 =>
            rw [hcp] at h
            simp only [Functor.map, Except.map] at h
            injection h with h2
            subst h2
            exact ih hcp
          | ok l =>
            rw [hcp] at h
            simp [Functor.map, Except.map] at h
    · split at h
      · injection h with h2; exact h2.symm
      · cases hcp : copy_passwd_entries st rest with
        | error r2 =>
          rw [hcp] at h
          simp only [Functor.map, Except.map] at h
          injection h with h2
          subst h2
          exact ih hcp
        | ok l =>
          rw [hcp] at h
          simp [Functor.map, Except.map] at h

/-- A collision anywhere in the existing group entries makes the copy loop
fail with `-EEXIST`. -/
theorem copy_group_entries_collision (st : RunState) (ents : List GrEnt)
    (h : ∃ gr ∈ ents, group_entry_collides st gr) :
    copy_group_entries st ents = .error (-EEXIST) := by
  induction ents with
  | nil => simp at h
  | cons gr rest ih =>
    obtain ⟨g0, hg0, hc⟩ := h
    unfold copy_group_entries
    rcases List.mem_cons.1 hg0 with rfl | hmem
    · rcases hc with ⟨i, hi, ht⟩ | hcont
      · rw [hi]
        simp [ht]
      · cases hgi : hashmap_get st.groups g0.name with
        | some i =>
          by_cases ht : i.todo = true
          · simp [ht]
          · simp [ht, hcont]
        | none => simp [hcont]
    · have hrec := ih ⟨g0, hmem, hc⟩
      cases hgi : hashmap_get st.groups gr.name with
      | some i =>
        by_cases ht : i.todo = true
        · simp [ht]
        · by_cases hcont : hashmap_contains st.todoGids gr.gid = true
          · simp [ht, hcont]
          · simp [ht, hcont, hrec, Functor.map, Except.map]
      | none =>
        by_cases hcont : hashmap_contains st.todoGids gr.gid = true
        · simp [hcont]
        · simp [hcont, hrec, Functor.map, Except.map]

/-- A collision anywhere in the existing passwd entries makes the copy loop
fail with `-EEXIST`. -/
theorem copy_passwd_entries_collision (st : RunState) (ents : List PwEnt)
    (h : ∃ pw ∈ ents, passwd_entry_collides st pw) :
    copy_passwd_entries st ents = .error (-EEXIST) := by
  induction ents with
  | nil => simp at h
  | cons pw rest ih =>
    obtain ⟨p0, hp0, hc⟩ := h
    unfold copy_passwd_entries
    rcases List.mem_cons.1 hp0 with rfl | hmem
    · rcases hc with ⟨i, hi, ht⟩ | hcont
      · rw [hi]
        simp [ht]
      · cases hgi : hashmap_get st.users p0.name with
        | some i =>
          by_cases ht : i.todo = true
          · simp [ht]
          · simp [ht, hcont]
        | none => simp [hcont]
    · have hrec := ih ⟨p0, hmem, hc⟩
      cases hgi : hashmap_get st.users pw.name with
      | some i =>
        by_cases ht : i.todo = true
        · simp [ht]
        · by_cases hcont : hashmap_contains st.todoUids pw.uid = true
          · simp [ht, hcont]
          · simp [ht, hcont, hrec, Functor.map, Except.map]
      | none =>
        by_cases hcont : hashmap_contains st.todoUids pw.uid = true
        · simp [hcont]
        · simp [hcont, hrec, Functor.map, Except.map]

/-- Claim C2: whenever an entry copied from the existing group or passwd file
collides with the pending work — its name belongs to a pending item of the
same table, or its numeric ID is a key of the corresponding pending set —
`write_files` aborts with a fatal error and the filesystem is completely
unchanged: targets, backups, everything (no rename is performed; in the
source the temp files are unlinked on this path, sysusers.c:442-448). -/
theorem write_files_collision_aborts (st : RunState) (fs : FS)
    (h : (∃ ents, fs.group = some ents ∧ st.todoGids ≠ [] ∧
            ∃ gr ∈ ents, group_entry_collides st gr) ∨
         (∃ ents, fs.passwd = some ents ∧ st.todoUids ≠ [] ∧
            ∃ pw ∈ ents, passwd_entry_collides st pw)) :
    (write_files st fs).1 < 0 ∧ (write_files st fs).2 = fs := by
  unfold write_files
  rcases h with ⟨ents, hfs, hne, hcol⟩ | ⟨ents, hfs, hne, hcol⟩
  · have hlen : st.todoGids.length > 0 := List.length_pos.mpr hne
    simp [hlen, hfs, copy_group_entries_collision st ents hcol]
    all_goals norm_num [EEXIST]
  · have hlen : st.todoUids.length > 0 := List.length_pos.mpr hne
    have hpcopy := copy_passwd_entries_collision st ents hcol
    by_cases hg : st.todoGids.length > 0
    · cases hfsg : fs.group with
      | none =>
        simp [hg, hfsg, hlen, hfs, hpcopy]
        all_goals norm_num [EEXIST]
      | some gents =>
        cases hcpy : copy_group_entries st gents with
        | error r =>
          have hr := copy_group_entries_error_eq st gents r hcpy
          subst hr
          simp [hg, hfsg, hcpy]
          all_goals norm_num [EEXIST]
        | ok copied =>
          simp [hg, hfsg, hcpy, hlen, hfs, hpcopy]
          all_goals norm_num [EEXIST]
    · simp [hg, hlen, hfs, hpcopy]
      all_goals norm_num [EEXIST]

/-- Run-state fixture for the C2 witness: one pending user `n` with uid and
gid 2 (entered in both pending sets). -/
def stWitC2 : RunState :=
  { stEmpty3 with
    users := [("n", { type := .ADD_USER, name := "n", uid := 2, gid := 2,
                      uid_set := true, gid_set := true, todo := true })],
    todoUids := [(2, (ItemType.ADD_USER, "n"))],
    todoGids := [(2, (ItemType.ADD_USER, "n"))] }

/-- Filesystem fixture for the C2 witness: the on-disk passwd file already
holds uid 2 under a different name. -/
def fsWitC2 : FS :=
  { passwd := some [{ name := "x1", uid := 2, gid := 2 }],
    group := some [], passwdBak := none, groupBak := none }

/-- Witness for C2: the commit aborts and the filesystem is untouched. -/
theorem write_files_collision_aborts_witness :
    (write_files stWitC2 fsWitC2).1 < 0 ∧ (write_files stWitC2 fsWitC2).2 = fsWitC2 :=
  write_files_collision_aborts stWitC2 fsWitC2
    (Or.inr ⟨[{ name := "x1", uid := 2, gid := 2 }], rfl, by decide,
      ⟨{ name := "x1", uid := 2, gid := 2 }, by simp, Or.inr (by decide)⟩⟩)

/-! ## C1: `main` drops the reconciler's error -/

/-- Host fixture for C1: alternate root (no probe), system ranges `(0, 1]`. -/
def cfgExh : Config :=
  { sysUidMax := 1, sysGidMax := 1, loginNameMax := 31,
    argRoot := some "", nss := nssEmpty, statFile := fun _ => none,
    specifierPrintf := fun s => .ok s }

/-- Declared users for C1: two plain `u` items. -/
def declExh : Hashmap String Item :=
  [("a", { type := .ADD_USER, name := "a" }), ("b", { type := .ADD_USER, name := "b" })]

/-- Filesystem fixture for C1: both account files exist and are empty. -/
def fsExh : FS := { passwd := some [], group := some [], passwdBak := none, groupBak := none }

/-- Claim C1 (code bug): processing item `a` exhausts the one-ID system
range, so `process_item` for item `b` fails with `-E2BIG`; yet `main`
discards that return value (sysusers.c:1350-1354), `write_files` still runs,
the group and passwd files are rewritten with item `a`, and the process exit
status is `EXIT_SUCCESS` — against the claim (and the spec's fail-fast /
non-zero-exit / files-untouched requirements). -/
theorem main_ignores_reconciler_error :
    (process_item cfgExh
        (runIds cfgExh (init_state cfgExh declExh [] fsExh) [(ItemType.ADD_USER, "a")])
        (ItemType.ADD_USER, "b")).1 = -E2BIG ∧
    (main_run cfgExh declExh [] fsExh).1 = 0 ∧
    (main_run cfgExh declExh [] fsExh).2.group =
      some [{ name := "a", passwd := "x", gid := 1, members := [] }] ∧
    (main_run cfgExh declExh [] fsExh).2.group ≠ fsExh.group := by
  decide

/-! ## C5: an item can sit in both pending sets -/

/-- Declared users for the C5 counterexample: a single plain `u` item. -/
def declC5 : Hashmap String Item := [("h", { type := .ADD_USER, name := "h" })]

/-- Counterexample for C5: after processing the single declared user `h` on a
fresh system, the very same item `(ADD_USER, "h")` is a value of *both*
pending sets (its paired group creation in `todo_gids` and its user creation
in `todo_uids`, both under ID 3), refuting "every item is a key of at most
one of the two pending sets". -/
theorem pending_sets_item_in_both :
    hashmap_get (runIds cfgRoot3 (init_state cfgRoot3 declC5 [] fsExh)
        [(ItemType.ADD_USER, "h")]).todoUids 3 = some (ItemType.ADD_USER, "h") ∧
    hashmap_get (runIds cfgRoot3 (init_state cfgRoot3 declC5 [] fsExh)
        [(ItemType.ADD_USER, "h")]).todoGids 3 = some (ItemType.ADD_USER, "h") := by
  decide

/-! ## C6: rule order in `add_user` -/

/-- Host fixture for C6: `stat("/p")` yields owner uid 7, group gid 9;
probe disabled via the alternate root. -/
def cfgPath : Config :=
  { sysUidMax := 100, sysGidMax := 100, loginNameMax := 31,
    argRoot := some "", nss := nssEmpty,
    statFile := fun p => if p = "/p" then some (7, 9) else none,
    specifierPrintf := fun s => .ok s }

/-- Item fixture for C6: resolved GID 5, uid path `/p`, no literal UID. -/
def itemC6 : Item :=
  { type := .ADD_USER, name := "s", gid := 5, gid_set := true, uid_path := some "/p" }

/-- State fixture for C6: empty databases. -/
def stC6 : RunState := init_state cfgPath [("s", itemC6)] [] fsExh

/-- Counterexample for C6: both candidate UIDs are acceptable — the resolved
GID 5 is free (`uid_is_ok = 1`) and the path-derived UID 7 is free and in
range — yet `add_user` assigns the *path-derived* 7, because the path-hint
stage (sysusers.c:628-648) runs before the reuse-GID stage
(sysusers.c:650-661), refuting the claimed order. -/
theorem add_user_path_rule_first_cex :
    itemC6.gid = 5 ∧
    uid_is_ok cfgPath stC6 5 "s" = 1 ∧
    (add_user cfgPath stC6 itemC6).2.2.uid = 7 ∧
    (add_user cfgPath stC6 itemC6).1 = 0 := by
  decide

/-- Amended C6: for a user item whose literal UID hint is absent (and which
is genuinely new: not in the loaded passwd database, and unknown to the
probe when it is enabled), the *path-inherited-hint rule runs first*: if the
path yields an in-range, free candidate UID `c`, that `c` is assigned — the
reuse-GID-as-UID rule is never consulted, whatever the resolved GID is. -/
theorem add_user_path_before_gid_reuse (cfg : Config) (st : RunState) (i : Item) (c : Nat)
    (h0 : i.uid_set = false)
    (h1 : hashmap_get st.dbUser i.name = none)
    (hnss : cfg.argRoot = none →
      cfg.nss.getpwnam i.name = .ok none ∧ cfg.nss.getspnam i.name = .ok none)
    (h3 : read_id_from_file cfg i true false = (1, some c, none))
    (h4 : 0 < c) (h5 : c ≤ cfg.sysUidMax)
    (h6 : uid_is_ok cfg st c i.name = 1) :
    add_user cfg st i =
      (0, { st with todoUids := st.todoUids ++ [(c, (i.type, i.name))] },
       { i with uid := c, uid_set := true, todo := true }) := by
  have hts : (hashmap_get st.todoUids c).isSome = false := by
    by_contra hx
    simp only [Bool.not_eq_false] at hx
    unfold uid_is_ok at h6
    rw [if_pos hx] at h6
    exact absurd h6 (by norm_num)
  have hc0 : ¬(c = 0) := by omega
  have hcm : ¬(c > cfg.sysUidMax) := by omega
  unfold add_user add_user_hint add_user_path add_user_gid add_user_scan add_user_put
  rw [h1]
  cases har : cfg.argRoot with
  | some r =>
    simp [h0, h3, h6, hc0, hcm, hashmap_put, hashmap_contains, hts]
  | none =>
    obtain ⟨hpw, hsp⟩ := hnss har
    simp [h0, h3, h6, hc0, hcm, hpw, hsp, hashmap_put, hashmap_contains, hts]

/-- Witness for the amended C6, at the counterexample fixture: the
path-derived UID 7 is assigned and entered into the pending UIDs. -/
theorem add_user_path_before_gid_reuse_witness :
    add_user cfgPath stC6 itemC6 =
      (0, { stC6 with todoUids := stC6.todoUids ++ [(7, (itemC6.type, itemC6.name))] },
       { itemC6 with uid := 7, uid_set := true, todo := true }) :=
  add_user_path_before_gid_reuse cfgPath stC6 itemC6 7 rfl rfl
    (fun h => by simp [cfgPath] at h) (by decide) (by decide) (by decide) (by decide)

/-! ## Effect lemmas for `add_user` / `add_group` -/

/-- A successful `hashmap_put` appends the new binding. -/
theorem hashmap_put_ok [DecidableEq α] {h m : Hashmap α β} {a : α} {b : β}
    (hp : hashmap_put h a b = .ok m) : m = h ++ [(a, b)] := by
  unfold hashmap_put at hp
  split at hp
  · cases hp
  · injection hp with hp; exact hp.symm

/-- The scan loop never leaves the cursor above its starting point. -/
theorem uid_scan_le (cfg : Config) (st : RunState) (name : String) :
    ∀ n, (uid_scan cfg st name n).2 ≤ n := by
  intro n
  induction n with
  | zero => simp [uid_scan]
  | succ k ih =>
    unfold uid_scan
    dsimp only
    split
    · simp
    · split
      · simp
      · exact le_trans ih (Nat.le_succ k)

/-- The group scan loop never leaves the cursor above its starting point. -/
theorem gid_scan_le (cfg : Config) (st : RunState) :
    ∀ n, (gid_scan cfg st n).2 ≤ n := by
  intro n
  induction n with
  | zero => simp [gid_scan]
  | succ k ih =>
    unfold gid_scan
    dsimp only
    split
    · simp
    · split
      · simp
      · exact le_trans ih (Nat.le_succ k)

/-- Everything `add_user` (and each of its stages) can do to the state and
the item: the gid side of the item is untouched, the declared maps and
databases are untouched, the pending GID set and the GID cursor are
untouched, the UID cursor never grows, and the pending UID set either stays
or gets exactly the item appended under its final uid. -/
def AUPost (st st' : RunState) (i i' : Item) : Prop :=
  i'.type = i.type ∧ i'.name = i.name ∧ i'.gid = i.gid ∧ i'.gid_set = i.gid_set ∧
  i'.gid_path = i.gid_path ∧ i'.uid_path = i.uid_path ∧
  st'.users = st.users ∧ st'.groups = st.groups ∧
  st'.dbUser = st.dbUser ∧ st'.dbUid = st.dbUid ∧
  st'.dbGroup = st.dbGroup ∧ st'.dbGid = st.dbGid ∧
  st'.todoGids = st.todoGids ∧ st'.searchGid = st.searchGid ∧
  st'.searchUid ≤ st.searchUid ∧
  (st'.todoUids = st.todoUids ∨
   st'.todoUids = st.todoUids ++ [(i'.uid, (i'.type, i'.name))])

/-- Unchanged state and item satisfy `AUPost`. -/
theorem AUPost_id (st : RunState) (i : Item) : AUPost st st i i :=
  ⟨rfl, rfl, rfl, rfl, rfl, rfl, rfl, rfl, rfl, rfl, rfl, rfl, rfl, rfl,
   le_refl _, Or.inl rfl⟩

/-- `AUPost` absorbs a preliminary item transformation that keeps the tracked
fields. -/
theorem AUPost_step {st st' : RunState} {i i₁ i' : Item}
    (hty : i₁.type = i.type) (hnm : i₁.name = i.name) (hg : i₁.gid = i.gid)
    (hgs : i₁.gid_set = i.gid_set) (hgp : i₁.gid_path = i.gid_path)
    (hup : i₁.uid_path = i.uid_path)
    (h : AUPost st st' i₁ i') : AUPost st st' i i' := by
  obtain ⟨a1, a2, a3, a4, a5, a6, rest⟩ := h
  exact ⟨a1.trans hty, a2.trans hnm, a3.trans hg, a4.trans hgs,
         a5.trans hgp, a6.trans hup, rest⟩

/-- `AUPost` absorbs a preliminary decrease of the UID cursor. -/
theorem AUPost_cursor {st st' : RunState} {v : Nat} {i i' : Item}
    (hv : v ≤ st.searchUid)
    (h : AUPost { st with searchUid := v } st' i i') : AUPost st st' i i' := by
  obtain ⟨a1, a2, a3, a4, a5, a6, a7, a8, a9, a10, a11, a12, a13, a14, a15, a16⟩ := h
  exact ⟨a1, a2, a3, a4, a5, a6, a7, a8, a9, a10, a11, a12, a13, a14,
         le_trans a15 hv, a16⟩

/-- Effects of the put stage of `add_user`. -/
theorem add_user_put_post (st : RunState) (i : Item) :
    AUPost st (add_user_put st i).2.1 i (add_user_put st i).2.2 := by
  unfold add_user_put
  cases hp : hashmap_put st.todoUids i.uid (i.type, i.name) with
  | error e => exact AUPost_id st i
  | ok m =>
    refine ⟨rfl, rfl, rfl, rfl, rfl, rfl, rfl, rfl, rfl, rfl, rfl, rfl, rfl, rfl,
      le_refl _, Or.inr ?_⟩
    exact hashmap_put_ok hp

/-- Effects of the scan stage of `add_user`. -/
theorem add_user_scan_post (cfg : Config) (st : RunState) (i : Item) :
    AUPost st (add_user_scan cfg st i).2.1 i (add_user_scan cfg st i).2.2 := by
  unfold add_user_scan
  dsimp only
  split
  · exact add_user_put_post st i
  · split
    · refine ⟨rfl, rfl, rfl, rfl, rfl, rfl, rfl, rfl, rfl, rfl, rfl, rfl, rfl, rfl,
        ?_, Or.inl rfl⟩
      exact uid_scan_le cfg st i.name st.searchUid
    · split
      · refine ⟨rfl, rfl, rfl, rfl, rfl, rfl, rfl, rfl, rfl, rfl, rfl, rfl, rfl, rfl,
          ?_, Or.inl rfl⟩
        exact uid_scan_le cfg st i.name st.searchUid
      · refine AUPost_cursor ?_ (AUPost_step rfl rfl rfl rfl rfl rfl
          (add_user_put_post _ _))
        exact le_trans (Nat.sub_le _ 1) (uid_scan_le cfg st i.name st.searchUid)

/-- Effects of the reuse-GID stage of `add_user`. -/
theorem add_user_gid_post (cfg : Config) (st : RunState) (i : Item) :
    AUPost st (add_user_gid cfg st i).2.1 i (add_user_gid cfg st i).2.2 := by
  unfold add_user_gid
  dsimp only
  split
  · split
    · exact AUPost_id st i
    · split
      · exact AUPost_step rfl rfl rfl rfl rfl rfl (add_user_scan_post cfg st _)
      · exact add_user_scan_post cfg st i
  · exact add_user_scan_post cfg st i

/-- Effects of the path-hint stage of `add_user`. -/
theorem add_user_path_post (cfg : Config) (st : RunState) (i : Item) :
    AUPost st (add_user_path cfg st i).2.1 i (add_user_path cfg st i).2.2 := by
  unfold add_user_path
  dsimp only
  split
  · exact add_user_gid_post cfg st i
  · split
    · next r c _ _ =>
      split
      · split
        · exact add_user_gid_post cfg st i
        · split
          · exact AUPost_id st i
          · split
            · exact AUPost_step rfl rfl rfl rfl rfl rfl (add_user_gid_post cfg st _)
            · exact add_user_gid_post cfg st i
      · exact add_user_gid_post cfg st i
    · exact add_user_gid_post cfg st i

/-- Effects of the literal-hint stage of `add_user`. -/
theorem add_user_hint_post (cfg : Config) (st : RunState) (i : Item) :
    AUPost st (add_user_hint cfg st i).2.1 i (add_user_hint cfg st i).2.2 := by
  unfold add_user_hint
  dsimp only
  split
  · split
    · exact AUPost_id st i
    · split
      · exact AUPost_step rfl rfl rfl rfl rfl rfl (add_user_path_post cfg st _)
      · exact add_user_path_post cfg st i
  · exact add_user_path_post cfg st i

/-- Effects of `add_user` as a whole. -/
theorem add_user_post (cfg : Config) (st : RunState) (i : Item) :
    AUPost st (add_user cfg st i).2.1 i (add_user cfg st i).2.2 := by
  unfold add_user
  split
  · exact AUPost_step rfl rfl rfl rfl rfl rfl (AUPost_id st _)
  · split
    · exact add_user_hint_post cfg st i
    · split
      · exact AUPost_id st i
      · exact AUPost_step rfl rfl rfl rfl rfl rfl (AUPost_id st _)
      · split
        · exact AUPost_id st i
        · exact AUPost_id st i
        · exact add_user_hint_post cfg st i

/-- Everything `add_group` (and each of its stages) can do: the uid side of
the item is untouched, the declared maps and databases are untouched, the
pending UID set and the UID cursor are untouched, the GID cursor never
grows, and the pending GID set either stays or gets exactly the item
appended under its final gid. -/
def AGPost (st st' : RunState) (i i' : Item) : Prop :=
  i'.type = i.type ∧ i'.name = i.name ∧ i'.uid = i.uid ∧ i'.uid_set = i.uid_set ∧
  i'.gid_path = i.gid_path ∧ i'.uid_path = i.uid_path ∧ i'.description = i.description ∧
  st'.users = st.users ∧ st'.groups = st.groups ∧
  st'.dbUser = st.dbUser ∧ st'.dbUid = st.dbUid ∧
  st'.dbGroup = st.dbGroup ∧ st'.dbGid = st.dbGid ∧
  st'.todoUids = st.todoUids ∧ st'.searchUid = st.searchUid ∧
  st'.searchGid ≤ st.searchGid ∧
  (st'.todoGids = st.todoGids ∨
   st'.todoGids = st.todoGids ++ [(i'.gid, (i'.type, i'.name))])

/-- Unchanged state and item satisfy `AGPost`. -/
theorem AGPost_id (st : RunState) (i : Item) : AGPost st st i i :=
  ⟨rfl, rfl, rfl, rfl, rfl, rfl, rfl, rfl, rfl, rfl, rfl, rfl, rfl, rfl, rfl,
   le_refl _, Or.inl rfl⟩

/-- `AGPost` absorbs a preliminary item transformation that keeps the tracked
fields. -/
theorem AGPost_step {st st' : RunState} {i i₁ i' : Item}
    (hty : i₁.type = i.type) (hnm : i₁.name = i.name) (hu : i₁.uid = i.uid)
    (hus : i₁.uid_set = i.uid_set) (hgp : i₁.gid_path = i.gid_path)
    (hup : i₁.uid_path = i.uid_path) (hd : i₁.description = i.description)
    (h : AGPost st st' i₁ i') : AGPost st st' i i' := by
  obtain ⟨a1, a2, a3, a4, a5, a6, a7, rest⟩ := h
  exact ⟨a1.trans hty, a2.trans hnm, a3.trans hu, a4.trans hus,
         a5.trans hgp, a6.trans hup, a7.trans hd, rest⟩

/-- `AGPost` absorbs a preliminary decrease of the GID cursor. -/
theorem AGPost_cursor {st st' : RunState} {v : Nat} {i i' : Item}
    (hv : v ≤ st.searchGid)
    (h : AGPost { st with searchGid := v } st' i i') : AGPost st st' i i' := by
  obtain ⟨a1, a2, a3, a4, a5, a6, a7, a8, a9, a10, a11, a12, a13, a14, a15, a16, a17⟩ := h
  exact ⟨a1, a2, a3, a4, a5, a6, a7, a8, a9, a10, a11, a12, a13, a14, a15,
         le_trans a16 hv, a17⟩

/-- Effects of the put stage of `add_group`. -/
theorem add_group_put_post (st : RunState) (i : Item) :
    AGPost st (add_group_put st i).2.1 i (add_group_put st i).2.2 := by
  unfold add_group_put
  cases hp : hashmap_put st.todoGids i.gid (i.type, i.name) with
  | error e => exact AGPost_id st i
  | ok m =>
    refine ⟨rfl, rfl, rfl, rfl, rfl, rfl, rfl, rfl, rfl, rfl, rfl, rfl, rfl, rfl, rfl,
      le_refl _, Or.inr ?_⟩
    exact hashmap_put_ok hp

/-- Effects of the scan stage of `add_group`. -/
theorem add_group_scan_post (cfg : Config) (st : RunState) (i : Item) :
    AGPost st (add_group_scan cfg st i).2.1 i (add_group_scan cfg st i).2.2 := by
  unfold add_group_scan
  dsimp only
  split
  · exact add_group_put_post st i
  · split
    · refine ⟨rfl, rfl, rfl, rfl, rfl, rfl, rfl, rfl, rfl, rfl, rfl, rfl, rfl, rfl, rfl,
        ?_, Or.inl rfl⟩
      exact gid_scan_le cfg st st.searchGid
    · split
      · refine ⟨rfl, rfl, rfl, rfl, rfl, rfl, rfl, rfl, rfl, rfl, rfl, rfl, rfl, rfl, rfl,
          ?_, Or.inl rfl⟩
        exact gid_scan_le cfg st st.searchGid
      · refine AGPost_cursor ?_ (AGPost_step rfl rfl rfl rfl rfl rfl rfl
          (add_group_put_post _ _))
        exact le_trans (Nat.sub_le _ 1) (gid_scan_le cfg st st.searchGid)

/-- Effects of the path-hint stage of `add_group`. -/
theorem add_group_path_post (cfg : Config) (st : RunState) (i : Item) :
    AGPost st (add_group_path cfg st i).2.1 i (add_group_path cfg st i).2.2 := by
  unfold add_group_path
  dsimp only
  split
  · exact add_group_scan_post cfg st i
  · split
    · next r _ c _ =>
      split
      · split
        · exact add_group_scan_post cfg st i
        · split
          · exact AGPost_id st i
          · split
            · exact AGPost_step rfl rfl rfl rfl rfl rfl rfl (add_group_scan_post cfg st _)
            · exact add_group_scan_post cfg st i
      · exact add_group_scan_post cfg st i
    · exact add_group_scan_post cfg st i

/-- Effects of the reuse-UID stage of `add_group`. -/
theorem add_group_uid_post (cfg : Config) (st : RunState) (i : Item) :
    AGPost st (add_group_uid cfg st i).2.1 i (add_group_uid cfg st i).2.2 := by
  unfold add_group_uid
  dsimp only
  split
  · split
    · exact AGPost_id st i
    · split
      · exact AGPost_step rfl rfl rfl rfl rfl rfl rfl (add_group_path_post cfg st _)
      · exact add_group_path_post cfg st i
  · exact add_group_path_post cfg st i

/-- Effects of the literal-hint stage of `add_group`. -/
theorem add_group_hint_post (cfg : Config) (st : RunState) (i : Item) :
    AGPost st (add_group_hint cfg st i).2.1 i (add_group_hint cfg st i).2.2 := by
  unfold add_group_hint
  dsimp only
  split
  · split
    · exact AGPost_id st i
    · split
      · exact AGPost_step rfl rfl rfl rfl rfl rfl rfl (add_group_uid_post cfg st _)
      · exact add_group_uid_post cfg st i
  · exact add_group_uid_post cfg st i

/-- Effects of `add_group` as a whole. -/
theorem add_group_post (cfg : Config) (st : RunState) (i : Item) :
    AGPost st (add_group cfg st i).2.1 i (add_group cfg st i).2.2 := by
  unfold add_group
  split
  · exact AGPost_step rfl rfl rfl rfl rfl rfl rfl (AGPost_id st _)
  · split
    · exact add_group_hint_post cfg st i
    · split
      · exact AGPost_id st i
      · exact AGPost_step rfl rfl rfl rfl rfl rfl rfl (AGPost_id st _)
      · exact add_group_hint_post cfg st i

/-! ## C8: the allocator cursors are monotonically non-increasing -/

/-- `putItemBack` touches only the declared maps. -/
theorem putItemBack_fields (st : RunState) (id : ItemId) (i : Item) :
    (putItemBack st id i).searchUid = st.searchUid ∧
    (putItemBack st id i).searchGid = st.searchGid ∧
    (putItemBack st id i).todoUids = st.todoUids ∧
    (putItemBack st id i).todoGids = st.todoGids ∧
    (putItemBack st id i).dbUser = st.dbUser ∧
    (putItemBack st id i).dbUid = st.dbUid ∧
    (putItemBack st id i).dbGroup = st.dbGroup ∧
    (putItemBack st id i).dbGid = st.dbGid := by
  obtain ⟨t, n⟩ := id
  cases t <;> exact ⟨rfl, rfl, rfl, rfl, rfl, rfl, rfl, rfl⟩

/-- One `process_item` step never increases either cursor. -/
theorem process_item_cursor (cfg : Config) (st : RunState) (id : ItemId) :
    (process_item cfg st id).2.searchUid ≤ st.searchUid ∧
    (process_item cfg st id).2.searchGid ≤ st.searchGid := by
  unfold process_item
  cases hi : getItem st id with
  | none => exact ⟨le_refl _, le_refl _⟩
  | some i =>
    dsimp only
    obtain ⟨-, -, -, -, -, -, -, -, -, -, -, -, -, -, hsu, hsg, -⟩ :=
      add_group_post cfg st i
    obtain ⟨pu, pg, -⟩ :=
      putItemBack_fields (add_group cfg st i).2.1 id (add_group cfg st i).2.2
    split
    · -- ADD_USER
      split
      · -- add_group failed; its state is written back
        exact ⟨by rw [pu, hsu], by rw [pg]; exact hsg⟩
      · -- add_user runs on the written-back state
        obtain ⟨-, -, -, -, -, -, -, -, -, -, -, -, -, hgg, huu, -⟩ :=
          add_user_post cfg (putItemBack (add_group cfg st i).2.1 id (add_group cfg st i).2.2)
            (add_group cfg st i).2.2
        obtain ⟨qu, qg, -⟩ := putItemBack_fields
          (add_user cfg (putItemBack (add_group cfg st i).2.1 id (add_group cfg st i).2.2)
            (add_group cfg st i).2.2).2.1 id
          (add_user cfg (putItemBack (add_group cfg st i).2.1 id (add_group cfg st i).2.2)
            (add_group cfg st i).2.2).2.2
        constructor
        · rw [qu]
          exact le_trans huu (le_of_eq (by rw [pu, hsu]))
        · rw [qg, hgg, pg]
          exact hsg
    · -- ADD_GROUP
      split
      · -- folded into an existing user declaration: only the users map changes
        exact ⟨le_refl _, le_refl _⟩
      · exact ⟨by rw [pu, hsu], by rw [pg]; exact hsg⟩

/-- A run of `process_item` steps never increases either cursor. -/
theorem runIds_cursor (cfg : Config) (ids : List ItemId) :
    ∀ st : RunState,
      (runIds cfg st ids).searchUid ≤ st.searchUid ∧
      (runIds cfg st ids).searchGid ≤ st.searchGid := by
  induction ids with
  | nil => exact fun st => ⟨le_refl _, le_refl _⟩
  | cons id rest ih =>
    intro st
    obtain ⟨h1, h2⟩ := process_item_cursor cfg st id
    obtain ⟨h3, h4⟩ := ih (process_item cfg st id).2
    exact ⟨le_trans h3 h1, le_trans h4 h2⟩

/-- A positive scan return code means the loop stopped on a nonzero cursor
value. -/
theorem uid_scan_pos_ne_zero (cfg : Config) (st : RunState) (name : String) :
    ∀ n, 0 < (uid_scan cfg st name n).1 → (uid_scan cfg st name n).2 ≠ 0 := by
  intro n
  induction n with
  | zero => intro h; simp [uid_scan] at h
  | succ k ih =>
    unfold uid_scan
    dsimp only
    split
    · intro h; simp
    · split
      · intro h; simp
      · exact ih

/-- A positive group-scan return code means a nonzero cursor value. -/
theorem gid_scan_pos_ne_zero (cfg : Config) (st : RunState) :
    ∀ n, 0 < (gid_scan cfg st n).1 → (gid_scan cfg st n).2 ≠ 0 := by
  intro n
  induction n with
  | zero => intro h; simp [gid_scan] at h
  | succ k ih =>
    unfold gid_scan
    dsimp only
    split
    · intro h; simp
    · split
      · intro h; simp
      · exact ih

/-- The put stage keeps the cursors and the item's ids. -/
theorem add_user_put_keeps (st : RunState) (i : Item) :
    (add_user_put st i).2.1.searchUid = st.searchUid ∧
    (add_user_put st i).2.2.uid = i.uid := by
  unfold add_user_put
  cases hashmap_put st.todoUids i.uid (i.type, i.name) <;> exact ⟨rfl, rfl⟩

/-- The group put stage keeps the cursors and the item's ids. -/
theorem add_group_put_keeps (st : RunState) (i : Item) :
    (add_group_put st i).2.1.searchGid = st.searchGid ∧
    (add_group_put st i).2.2.gid = i.gid := by
  unfold add_group_put
  cases hashmap_put st.todoGids i.gid (i.type, i.name) <;> exact ⟨rfl, rfl⟩

/-- Claim C8: across a run, each allocator cursor is monotonically
non-increasing — no sequence of `process_item` steps ever increases
`search_uid` or `search_gid` — and whenever the free-ID search accepts a
value `v` (the scan loop returns a positive code), the accepting stage
assigns `v` to the item and leaves the cursor at `v - 1`, strictly past the
chosen value, with `v` no larger than the cursor the search started from. -/
theorem allocator_cursor_monotone :
    (∀ (cfg : Config) (st : RunState) (ids : List ItemId),
      (runIds cfg st ids).searchUid ≤ st.searchUid ∧
      (runIds cfg st ids).searchGid ≤ st.searchGid) ∧
    (∀ (cfg : Config) (st : RunState) (i : Item),
      i.uid_set = false → 0 < (uid_scan cfg st i.name st.searchUid).1 →
      ((add_user_scan cfg st i).2.1.searchUid =
          (uid_scan cfg st i.name st.searchUid).2 - 1 ∧
       (add_user_scan cfg st i).2.2.uid = (uid_scan cfg st i.name st.searchUid).2 ∧
       (uid_scan cfg st i.name st.searchUid).2 ≤ st.searchUid)) ∧
    (∀ (cfg : Config) (st : RunState) (i : Item),
      i.gid_set = false → 0 < (gid_scan cfg st st.searchGid).1 →
      ((add_group_scan cfg st i).2.1.searchGid =
          (gid_scan cfg st st.searchGid).2 - 1 ∧
       (add_group_scan cfg st i).2.2.gid = (gid_scan cfg st st.searchGid).2 ∧
       (gid_scan cfg st st.searchGid).2 ≤ st.searchGid)) := by
  refine ⟨fun cfg st ids => runIds_cursor cfg ids st, ?_, ?_⟩
  · intro cfg st i hset hpos
    have hnz := uid_scan_pos_ne_zero cfg st i.name st.searchUid hpos
    have hle := uid_scan_le cfg st i.name st.searchUid
    unfold add_user_scan
    dsimp only
    rw [if_neg (by simp [hset]), if_neg (by omega), if_neg hnz]
    obtain ⟨k1, k2⟩ := add_user_put_keeps
      { st with searchUid := (uid_scan cfg st i.name st.searchUid).2 - 1 }
      { i with uid := (uid_scan cfg st i.name st.searchUid).2, uid_set := true }
    exact ⟨k1, k2, hle⟩
  · intro cfg st i hset hpos
    have hnz := gid_scan_pos_ne_zero cfg st st.searchGid hpos
    have hle := gid_scan_le cfg st st.searchGid
    unfold add_group_scan
    dsimp only
    rw [if_neg (by simp [hset]), if_neg (by omega), if_neg hnz]
    obtain ⟨k1, k2⟩ := add_group_put_keeps
      { st with searchGid := (gid_scan cfg st st.searchGid).2 - 1 }
      { i with gid := (gid_scan cfg st st.searchGid).2, gid_set := true }
    exact ⟨k1, k2, hle⟩

/-- Witness for C8: a concrete run decreases the cursor, and a concrete
accepted scan leaves the cursor one past the accepted value. -/
theorem allocator_cursor_monotone_witness :
    ((runIds cfgRoot3 (init_state cfgRoot3 declC5 [] fsExh)
        [(ItemType.ADD_USER, "h")]).searchUid ≤
      (init_state cfgRoot3 declC5 [] fsExh).searchUid) ∧
    ((add_user_scan cfgRoot3 stEmpty3 { type := .ADD_USER, name := "w" }).2.1.searchUid =
      (uid_scan cfgRoot3 stEmpty3 "w" stEmpty3.searchUid).2 - 1) ∧
    ((add_group_scan cfgRoot3 stEmpty3 { type := .ADD_GROUP, name := "w" }).2.1.searchGid =
      (gid_scan cfgRoot3 stEmpty3 stEmpty3.searchGid).2 - 1) :=
  ⟨(allocator_cursor_monotone.1 cfgRoot3 (init_state cfgRoot3 declC5 [] fsExh)
      [(ItemType.ADD_USER, "h")]).1,
   (allocator_cursor_monotone.2.1 cfgRoot3 stEmpty3
      { type := .ADD_USER, name := "w" } rfl (by decide)).1,
   (allocator_cursor_monotone.2.2 cfgRoot3 stEmpty3
      { type := .ADD_GROUP, name := "w" } rfl (by decide)).1⟩

/-! ## C5: pending-set membership and frozen IDs -/

/-- A successful lookup is list membership. -/
theorem hashmap_get_mem [DecidableEq α] {h : Hashmap α β} {a : α} {b : β}
    (hg : hashmap_get h a = some b) : (a, b) ∈ h := by
  induction h with
  | nil => simp [hashmap_get] at hg
  | cons kv rest ih =>
    unfold hashmap_get at hg
    split at hg
    · next he => injection hg with hg; subst hg; subst he; exact List.mem_cons_self _ _
    · exact List.mem_cons_of_mem _ (ih hg)

/-- Updating an existing key makes the lookup return the new value. -/
theorem hashmap_get_update_self [DecidableEq α] {h : Hashmap α β} {a : α} {b c : β}
    (hg : hashmap_get h a = some b) :
    hashmap_get (hashmap_update h a c) a = some c := by
  induction h with
  | nil => simp [hashmap_get] at hg
  | cons kv rest ih =>
    unfold hashmap_get at hg
    unfold hashmap_update
    split at hg
    · next he => simp [hashmap_get, he]
    · next he =>
      rw [if_neg he]
      unfold hashmap_get
      rw [if_neg he]
      exact ih hg

/-- Updating one key leaves other lookups unchanged. -/
theorem hashmap_get_update_ne [DecidableEq α] (h : Hashmap α β) (a a' : α) (c : β)
    (hne : a' ≠ a) :
    hashmap_get (hashmap_update h a c) a' = hashmap_get h a' := by
  induction h with
  | nil => rfl
  | cons kv rest ih =>
    obtain ⟨k, v⟩ := kv
    by_cases he : k = a
    · simp only [hashmap_update]
      rw [if_pos he]
      simp only [hashmap_get]
      have hka : ¬(k = a') := fun hx => hne (hx ▸ he)
      rw [if_neg hka, if_neg hka]
    · simp only [hashmap_update]
      rw [if_neg he]
      simp only [hashmap_get]
      by_cases hk : k = a'
      · rw [if_pos hk, if_pos hk]
      · rw [if_neg hk, if_neg hk]
        exact ih

/-- Members of an updated map come from the old map or are the new binding. -/
theorem hashmap_update_mem [DecidableEq α] {h : Hashmap α β} {a : α} {b : β}
    {p : α × β} (hp : p ∈ hashmap_update h a b) : p ∈ h ∨ p = (a, b) := by
  induction h with
  | nil => simp [hashmap_update] at hp
  | cons kv rest ih =>
    obtain ⟨k, v⟩ := kv
    simp only [hashmap_update] at hp
    split at hp
    · next he =>
      rcases List.mem_cons.1 hp with rfl | hmem
      · exact Or.inr (by rw [he])
      · exact Or.inl (List.mem_cons_of_mem _ hmem)
    · rcases List.mem_cons.1 hp with rfl | hmem
      · exact Or.inl (List.mem_cons_self _ _)
      · rcases ih hmem with h1 | h2
        · exact Or.inl (List.mem_cons_of_mem _ h1)
        · exact Or.inr h2

/-- Writing an item back under the identity it was read from makes `getItem`
return the new item. -/
theorem getItem_putItemBack_self {st : RunState} {id : ItemId} {i : Item} (i' : Item)
    (hg : getItem st id = some i) :
    getItem (putItemBack st id i') id = some i' := by
  obtain ⟨t, n⟩ := id
  cases t with
  | ADD_USER =>
    simp only [getItem, putItemBack] at hg ⊢
    exact hashmap_get_update_self hg
  | ADD_GROUP =>
    simp only [getItem, putItemBack] at hg ⊢
    exact hashmap_get_update_self hg

/-- Writing an item back leaves every other identity's resolution
unchanged. -/
theorem getItem_putItemBack_ne (st : RunState) (id id' : ItemId) (i' : Item)
    (hne : id' ≠ id) :
    getItem (putItemBack st id i') id' = getItem st id' := by
  obtain ⟨t, n⟩ := id
  obtain ⟨t', n'⟩ := id'
  cases t <;> cases t' <;> simp only [getItem, putItemBack] <;>
    first
      | rfl
      | exact hashmap_get_update_ne _ _ _ _ (fun hx => hne (by rw [hx]))

/-- The pending-set invariant of the spec's data model, adjusted to the code:
every pending-UID entry names an `ADD_USER` item whose current `uid` equals
the key it is filed under, and every pending-GID entry names an item whose
current `gid` equals the key it is filed under. -/
def TodoInv (st : RunState) : Prop :=
  (∀ p ∈ st.todoUids, p.2.1 = ItemType.ADD_USER ∧
     ∃ it, getItem st p.2 = some it ∧ it.uid = p.1) ∧
  (∀ p ∈ st.todoGids, ∃ it, getItem st p.2 = some it ∧ it.gid = p.1)

/-- Every item has at most one entry in each pending set. -/
def DistinctIds (st : RunState) : Prop :=
  (st.todoUids.map (fun p => p.2)).Nodup ∧ (st.todoGids.map (fun p => p.2)).Nodup

/-- Well-formedness of the declared maps as the config parser builds them:
user items are keyed by their own name and typed `ADD_USER`, group items
likewise. -/
def WFdecl (st : RunState) : Prop :=
  (∀ p ∈ st.users, (p.2).type = ItemType.ADD_USER ∧ (p.2).name = p.1) ∧
  (∀ p ∈ st.groups, (p.2).type = ItemType.ADD_GROUP ∧ (p.2).name = p.1)

/-- No pending entry references an item that is still waiting to be
processed. -/
def TodoFresh (st : RunState) (suf : List ItemId) : Prop :=
  (∀ p ∈ st.todoUids, p.2 ∉ suf) ∧ (∀ p ∈ st.todoGids, p.2 ∉ suf)

/-- While group items remain to be processed, no user item has been
processed: the pending-UID set is empty and pending-GID entries are group
items. -/
def PhaseOk (st : RunState) (suf : List ItemId) : Prop :=
  (∃ id ∈ suf, id.1 = ItemType.ADD_GROUP) →
    (st.todoUids = [] ∧ ∀ p ∈ st.todoGids, p.2.1 = ItemType.ADD_GROUP)

/-- The remaining work is always some groups followed by some users, the
shape `main` produces. -/
def SufOk (suf : List ItemId) : Prop :=
  ∃ gs us, suf = gs ++ us ∧ (∀ id ∈ gs, id.1 = ItemType.ADD_GROUP) ∧
    (∀ id ∈ us, id.1 = ItemType.ADD_USER)

/-- The full invariant carried through the reconciliation loops, relative to
the remaining work `suf`. -/
def Pre (st : RunState) (suf : List ItemId) : Prop :=
  WFdecl st ∧ TodoInv st ∧ DistinctIds st ∧ TodoFresh st suf ∧ PhaseOk st suf ∧
  SufOk suf ∧ suf.Nodup

/-- The remaining-work shape survives removing the head. -/
theorem SufOk_tail {id : ItemId} {suf : List ItemId} (h : SufOk (id :: suf)) :
    SufOk suf := by
  obtain ⟨gs, us, heq, hgs, hus⟩ := h
  cases gs with
  | nil =>
    cases us with
    | nil => cases heq
    | cons u us' =>
      injection heq with h1 h2
      subst h2
      refine ⟨[], suf, rfl, ?_, ?_⟩
      · intro x hx; cases hx
      · intro x hx; exact hus x (List.mem_cons_of_mem _ hx)
  | cons g gs' =>
    injection heq with h1 h2
    exact ⟨gs', us, h2, fun x hx => hgs x (List.mem_cons_of_mem _ hx), hus⟩

/-- A user head forces the whole remaining list to be user items. -/
theorem SufOk_user_head {id : ItemId} {suf : List ItemId}
    (h : SufOk (id :: suf)) (hu : id.1 = ItemType.ADD_USER) :
    ∀ x ∈ id :: suf, x.1 = ItemType.ADD_USER := by
  obtain ⟨gs, us, heq, hgs, hus⟩ := h
  cases gs with
  | nil =>
    simp only [List.nil_append] at heq
    intro x hx
    exact hus x (heq ▸ hx)
  | cons g gs' =>
    injection heq with h1 h2
    subst h1
    exact absurd (hgs id (List.mem_cons_self _ _)) (by rw [hu]; intro hx; cases hx)

/-- `getItem` only looks at the declared maps. -/
theorem getItem_congr {st st' : RunState} (hu : st'.users = st.users)
    (hg : st'.groups = st.groups) (id : ItemId) : getItem st' id = getItem st id := by
  obtain ⟨t, n⟩ := id
  cases t <;> simp [getItem, hu, hg]

/-- A new identity can be appended to a pending set without breaking
`Nodup` of its identities, provided no existing entry carries it. -/
theorem nodup_map_append_one {l : Hashmap Nat ItemId} {k : Nat} {e : ItemId}
    (hn : (l.map (fun p => p.2)).Nodup) (hne : ∀ p ∈ l, p.2 ≠ e) :
    (((l ++ [(k, e)]).map (fun p => p.2))).Nodup := by
  rw [List.map_append]
  simp only [List.map_cons, List.map_nil]
  refine List.Nodup.append hn (List.nodup_singleton _) ?_
  intro a ha hb
  obtain ⟨q, hq, hqe⟩ := List.mem_map.1 ha
  exact hne q hq (hqe.trans (List.mem_singleton.1 hb))

/-- Preservation of the run invariant by the write-back of a processed
*user* item: the declared user map is rewritten at the item's own name, the
item keeps its kind and name, and each pending set either stays or gets the
item appended under its current id. -/
theorem user_step_pre (st st' : RunState) (n : String) (i' : Item) (suf : List ItemId)
    (hwf : WFdecl st) (hinv : TodoInv st) (hdist : DistinctIds st)
    (hfresh : TodoFresh st suf)
    (hneu : ∀ p ∈ st.todoUids, p.2 ≠ (ItemType.ADD_USER, n))
    (hneg : ∀ p ∈ st.todoGids, p.2 ≠ (ItemType.ADD_USER, n))
    (hid_not : (ItemType.ADD_USER, n) ∉ suf)
    (hallu : ∀ x ∈ suf, x.1 = ItemType.ADD_USER)
    (hsuf : SufOk suf) (hnd : suf.Nodup)
    (hgetne : ∀ id' : ItemId, id' ≠ (ItemType.ADD_USER, n) →
      getItem st' id' = getItem st id')
    (hself : getItem st' (ItemType.ADD_USER, n) = some i')
    (hgr : st'.groups = st.groups)
    (husm : ∀ p ∈ st'.users, p ∈ st.users ∨
      ((p.2).type = ItemType.ADD_USER ∧ (p.2).name = p.1))
    (htu : st'.todoUids = st.todoUids ∨
      st'.todoUids = st.todoUids ++ [(i'.uid, (ItemType.ADD_USER, n))])
    (htg : st'.todoGids = st.todoGids ∨
      st'.todoGids = st.todoGids ++ [(i'.gid, (ItemType.ADD_USER, n))]) :
    Pre st' suf ∧ (∀ p ∈ st.todoUids, p ∈ st'.todoUids) ∧
      (∀ p ∈ st.todoGids, p ∈ st'.todoGids) := by
  have hnewmem : ∀ (p : Nat × ItemId) (k : Nat) (l : Hashmap Nat ItemId),
      p ∈ l ++ [(k, (ItemType.ADD_USER, n))] →
      p ∈ l ∨ p = (k, (ItemType.ADD_USER, n)) := by
    intro p k l hp
    rcases List.mem_append.1 hp with h1 | h2
    · exact Or.inl h1
    · exact Or.inr (List.mem_singleton.1 h2)
  have memu : ∀ p ∈ st.todoUids, p ∈ st'.todoUids := by
    intro p hp
    rcases htu with he | he <;> rw [he]
    · exact hp
    · exact List.mem_append_left _ hp
  have memg : ∀ p ∈ st.todoGids, p ∈ st'.todoGids := by
    intro p hp
    rcases htg with he | he <;> rw [he]
    · exact hp
    · exact List.mem_append_left _ hp
  refine ⟨⟨⟨?_, ?_⟩, ⟨?_, ?_⟩, ⟨?_, ?_⟩, ⟨?_, ?_⟩, ?_, hsuf, hnd⟩, memu, memg⟩
  · -- WFdecl, users
    intro p hp
    rcases husm p hp with hold | hnew
    · exact hwf.1 p hold
    · exact hnew
  · -- WFdecl, groups
    intro p hp
    rw [hgr] at hp
    exact hwf.2 p hp
  · -- TodoInv, uids
    intro p hp
    rcases htu with he | he
    · rw [he] at hp
      obtain ⟨hpty, it, hgi, hu⟩ := hinv.1 p hp
      exact ⟨hpty, it, (hgetne p.2 (hneu p hp)).trans hgi, hu⟩
    · rw [he] at hp
      rcases hnewmem p _ _ hp with hold | hnew
      · obtain ⟨hpty, it, hgi, hu⟩ := hinv.1 p hold
        exact ⟨hpty, it, (hgetne p.2 (hneu p hold)).trans hgi, hu⟩
      · subst hnew
        exact ⟨rfl, i', hself, rfl⟩
  · -- TodoInv, gids
    intro p hp
    rcases htg with he | he
    · rw [he] at hp
      obtain ⟨it, hgi, hg⟩ := hinv.2 p hp
      exact ⟨it, (hgetne p.2 (hneg p hp)).trans hgi, hg⟩
    · rw [he] at hp
      rcases hnewmem p _ _ hp with hold | hnew
      · obtain ⟨it, hgi, hg⟩ := hinv.2 p hold
        exact ⟨it, (hgetne p.2 (hneg p hold)).trans hgi, hg⟩
      · subst hnew
        exact ⟨i', hself, rfl⟩
  · -- DistinctIds, uids
    rcases htu with he | he <;> rw [he]
    · exact hdist.1
    · exact nodup_map_append_one hdist.1 hneu
  · -- DistinctIds, gids
    rcases htg with he | he <;> rw [he]
    · exact hdist.2
    · exact nodup_map_append_one hdist.2 hneg
  · -- TodoFresh, uids
    intro p hp
    rcases htu with he | he
    · rw [he] at hp; exact hfresh.1 p hp
    · rw [he] at hp
      rcases hnewmem p _ _ hp with hold | hnew
      · exact hfresh.1 p hold
      · subst hnew; exact hid_not
  · -- TodoFresh, gids
    intro p hp
    rcases htg with he | he
    · rw [he] at hp; exact hfresh.2 p hp
    · rw [he] at hp
      rcases hnewmem p _ _ hp with hold | hnew
      · exact hfresh.2 p hold
      · subst hnew; exact hid_not
  · -- PhaseOk
    rintro ⟨x, hx, hxty⟩
    rw [hallu x hx] at hxty
    cases hxty

/-- Preservation of the run invariant by the write-back of a processed
standalone *group* item (during the group phase: no user item has been
processed yet). -/
theorem group_step_pre (st st' : RunState) (n : String) (i' : Item) (suf : List ItemId)
    (hwf : WFdecl st) (hinv : TodoInv st) (hdist : DistinctIds st)
    (hfresh : TodoFresh st suf)
    (hpn : st.todoUids = [] ∧ ∀ p ∈ st.todoGids, p.2.1 = ItemType.ADD_GROUP)
    (hneg : ∀ p ∈ st.todoGids, p.2 ≠ (ItemType.ADD_GROUP, n))
    (hid_not : (ItemType.ADD_GROUP, n) ∉ suf)
    (hsuf : SufOk suf) (hnd : suf.Nodup)
    (hgetne : ∀ id' : ItemId, id' ≠ (ItemType.ADD_GROUP, n) →
      getItem st' id' = getItem st id')
    (hself : getItem st' (ItemType.ADD_GROUP, n) = some i')
    (hus : st'.users = st.users)
    (hgm : ∀ p ∈ st'.groups, p ∈ st.groups ∨
      ((p.2).type = ItemType.ADD_GROUP ∧ (p.2).name = p.1))
    (htu : st'.todoUids = st.todoUids)
    (htg : st'.todoGids = st.todoGids ∨
      st'.todoGids = st.todoGids ++ [(i'.gid, (ItemType.ADD_GROUP, n))]) :
    Pre st' suf ∧ (∀ p ∈ st.todoUids, p ∈ st'.todoUids) ∧
      (∀ p ∈ st.todoGids, p ∈ st'.todoGids) := by
  have hnewmem : ∀ (p : Nat × ItemId) (k : Nat) (l : Hashmap Nat ItemId),
      p ∈ l ++ [(k, (ItemType.ADD_GROUP, n))] →
      p ∈ l ∨ p = (k, (ItemType.ADD_GROUP, n)) := by
    intro p k l hp
    rcases List.mem_append.1 hp with h1 | h2
    · exact Or.inl h1
    · exact Or.inr (List.mem_singleton.1 h2)
  have memg : ∀ p ∈ st.todoGids, p ∈ st'.todoGids := by
    intro p hp
    rcases htg with he | he <;> rw [he]
    · exact hp
    · exact List.mem_append_left _ hp
  refine ⟨⟨⟨?_, ?_⟩, ⟨?_, ?_⟩, ⟨?_, ?_⟩, ⟨?_, ?_⟩, ?_, hsuf, hnd⟩,
    fun p hp => htu ▸ hp, memg⟩
  · -- WFdecl, users
    intro p hp
    rw [hus] at hp
    exact hwf.1 p hp
  · -- WFdecl, groups
    intro p hp
    rcases hgm p hp with hold | hnew
    · exact hwf.2 p hold
    · exact hnew
  · -- TodoInv, uids (empty during the group phase)
    intro p hp
    rw [htu, hpn.1] at hp
    cases hp
  · -- TodoInv, gids
    intro p hp
    rcases htg with he | he
    · rw [he] at hp
      obtain ⟨it, hgi, hg⟩ := hinv.2 p hp
      exact ⟨it, (hgetne p.2 (hneg p hp)).trans hgi, hg⟩
    · rw [he] at hp
      rcases hnewmem p _ _ hp with hold | hnew
      · obtain ⟨it, hgi, hg⟩ := hinv.2 p hold
        exact ⟨it, (hgetne p.2 (hneg p hold)).trans hgi, hg⟩
      · subst hnew
        exact ⟨i', hself, rfl⟩
  · -- DistinctIds, uids
    rw [htu]; exact hdist.1
  · -- DistinctIds, gids
    rcases htg with he | he <;> rw [he]
    · exact hdist.2
    · exact nodup_map_append_one hdist.2 hneg
  · -- TodoFresh, uids
    intro p hp
    rw [htu] at hp
    exact hfresh.1 p hp
  · -- TodoFresh, gids
    intro p hp
    rcases htg with he | he
    · rw [he] at hp; exact hfresh.2 p hp
    · rw [he] at hp
      rcases hnewmem p _ _ hp with hold | hnew
      · exact hfresh.2 p hold
      · subst hnew; exact hid_not
  · -- PhaseOk
    intro _
    refine ⟨by rw [htu, hpn.1], ?_⟩
    intro p hp
    rcases htg with he | he
    · rw [he] at hp; exact hpn.2 p hp
    · rw [he] at hp
      rcases hnewmem p _ _ hp with hold | hnew
      · exact hpn.2 p hold
      · subst hnew; rfl

/-- Folding a group into a user item keeps the item's kind and name. -/
theorem fold_group_into_user_keeps (i j : Item) :
    (fold_group_into_user i j).type = j.type ∧
    (fold_group_into_user i j).name = j.name := by
  unfold fold_group_into_user
  dsimp only
  cases i.gid_path <;> cases i.gid_set <;> exact ⟨rfl, rfl⟩

/-- One `process_item` step preserves the run invariant (relative to the
remaining work) and only ever appends to the pending sets. -/
theorem process_item_pre (cfg : Config) (st : RunState) (id : ItemId) (suf : List ItemId)
    (h : Pre st (id :: suf)) :
    Pre (process_item cfg st id).2 suf ∧
    (∀ p ∈ st.todoUids, p ∈ (process_item cfg st id).2.todoUids) ∧
    (∀ p ∈ st.todoGids, p ∈ (process_item cfg st id).2.todoGids) := by
  obtain ⟨hwf, hinv, hdist, hfresh, hphase, hsuf, hnd⟩ := h
  have hsuf' : SufOk suf := SufOk_tail hsuf
  obtain ⟨hid_not, hnd'⟩ := List.nodup_cons.1 hnd
  have hfresh' : TodoFresh st suf :=
    ⟨fun p hp hx => hfresh.1 p hp (List.mem_cons_of_mem _ hx),
     fun p hp hx => hfresh.2 p hp (List.mem_cons_of_mem _ hx)⟩
  have hneu_id : ∀ p ∈ st.todoUids, p.2 ≠ id :=
    fun p hp hx => hfresh.1 p hp (by rw [hx]; exact List.mem_cons_self _ _)
  have hneg_id : ∀ p ∈ st.todoGids, p.2 ≠ id :=
    fun p hp hx => hfresh.2 p hp (by rw [hx]; exact List.mem_cons_self _ _)
  have hphase' : PhaseOk st suf := by
    rintro ⟨x, hx, ht⟩
    exact hphase ⟨x, List.mem_cons_of_mem _ hx, ht⟩
  obtain ⟨t, n⟩ := id
  cases t with
  | ADD_USER =>
    have hallu : ∀ x ∈ suf, x.1 = ItemType.ADD_USER :=
      fun x hx => SufOk_user_head hsuf rfl x (List.mem_cons_of_mem _ hx)
    unfold process_item
    cases hi : getItem st (ItemType.ADD_USER, n) with
    | none =>
      exact ⟨⟨hwf, hinv, hdist, hfresh', hphase', hsuf', hnd'⟩,
        fun p hp => hp, fun p hp => hp⟩
    | some i =>
      have hgu : hashmap_get st.users n = some i := hi
      obtain ⟨hty, hnm⟩ := hwf.1 (n, i) (hashmap_get_mem hgu)
      dsimp only
      rw [hty]
      dsimp only
      obtain ⟨gty, gnm, guid, guset, ggp, gup, gdesc, gusers, ggroups, gdbu, gdbi,
        gdbg, gdbgi, gtu, gsu, gsg, gtgd⟩ := add_group_post cfg st i
      set i1 := (add_group cfg st i).2.2 with hi1def
      set stg := (add_group cfg st i).2.1 with hstgdef
      have hi1ty : i1.type = ItemType.ADD_USER := gty.trans hty
      have hi1nm : i1.name = n := gnm.trans hnm
      have hpair1 : (i1.type, i1.name) = (ItemType.ADD_USER, n) := by
        rw [hi1ty, hi1nm]
      have hself1 : getItem (putItemBack stg (ItemType.ADD_USER, n) i1)
          (ItemType.ADD_USER, n) = some i1 :=
        getItem_putItemBack_self _ (by rw [getItem_congr gusers ggroups]; exact hi)
      have hgetne1 : ∀ id' : ItemId, id' ≠ (ItemType.ADD_USER, n) →
          getItem (putItemBack stg (ItemType.ADD_USER, n) i1) id' = getItem st id' := by
        intro id' hne
        rw [getItem_putItemBack_ne _ _ _ _ hne, getItem_congr gusers ggroups]
      have hgr1 : (putItemBack stg (ItemType.ADD_USER, n) i1).groups = st.groups := ggroups
      have husm1 : ∀ p ∈ (putItemBack stg (ItemType.ADD_USER, n) i1).users,
          p ∈ st.users ∨ ((p.2).type = ItemType.ADD_USER ∧ (p.2).name = p.1) := by
        intro p hp
        have hp' : p ∈ hashmap_update st.users n i1 := by
          have hp2 : p ∈ hashmap_update stg.users n i1 := hp
          rw [gusers] at hp2
          exact hp2
        rcases hashmap_update_mem hp' with hold | hnew
        · exact Or.inl hold
        · subst hnew
          exact Or.inr ⟨hi1ty, hi1nm⟩
      have htu1 : (putItemBack stg (ItemType.ADD_USER, n) i1).todoUids = st.todoUids := gtu
      have htg1 : (putItemBack stg (ItemType.ADD_USER, n) i1).todoGids = st.todoGids ∨
          (putItemBack stg (ItemType.ADD_USER, n) i1).todoGids =
            st.todoGids ++ [(i1.gid, (ItemType.ADD_USER, n))] := by
        rcases gtgd with he | he
        · exact Or.inl he
        · right
          show stg.todoGids = _
          rw [he, hpair1]
      split
      · -- add_group failed; the item was still written back
        exact user_step_pre st _ n _ suf hwf hinv hdist hfresh' hneu_id hneg_id
          hid_not hallu hsuf' hnd' hgetne1 hself1 hgr1 husm1 (Or.inl htu1) htg1
      · -- add_user runs on the written-back state and is written back again
        obtain ⟨uty, unm, ugid, ugset, ugp, uup, uusers, ugroups, udbu, udbi,
          udbg, udbgi, utgd, usg, usu, utud⟩ :=
          add_user_post cfg (putItemBack stg (ItemType.ADD_USER, n) i1) i1
        set i2 := (add_user cfg (putItemBack stg (ItemType.ADD_USER, n) i1) i1).2.2
          with hi2def
        set stu := (add_user cfg (putItemBack stg (ItemType.ADD_USER, n) i1) i1).2.1
          with hstudef
        have hi2ty : i2.type = ItemType.ADD_USER := uty.trans hi1ty
        have hi2nm : i2.name = n := unm.trans hi1nm
        have hpair2 : (i2.type, i2.name) = (ItemType.ADD_USER, n) := by
          rw [hi2ty, hi2nm]
        have hself2 : getItem (putItemBack stu (ItemType.ADD_USER, n) i2)
            (ItemType.ADD_USER, n) = some i2 :=
          getItem_putItemBack_self _ (by rw [getItem_congr uusers ugroups]; exact hself1)
        have hgetne2 : ∀ id' : ItemId, id' ≠ (ItemType.ADD_USER, n) →
            getItem (putItemBack stu (ItemType.ADD_USER, n) i2) id' = getItem st id' := by
          intro id' hne
          rw [getItem_putItemBack_ne _ _ _ _ hne, getItem_congr uusers ugroups]
          exact hgetne1 id' hne
        have hgr2 : (putItemBack stu (ItemType.ADD_USER, n) i2).groups = st.groups := by
          show stu.groups = st.groups
          rw [ugroups]
          exact hgr1
        have husm2 : ∀ p ∈ (putItemBack stu (ItemType.ADD_USER, n) i2).users,
            p ∈ st.users ∨ ((p.2).type = ItemType.ADD_USER ∧ (p.2).name = p.1) := by
          intro p hp
          have hp' : p ∈ hashmap_update stu.users n i2 := hp
          rw [uusers] at hp'
          rcases hashmap_update_mem hp' with hold | hnew
          · exact husm1 p hold
          · subst hnew
            exact Or.inr ⟨hi2ty, hi2nm⟩
        have htu2 : (putItemBack stu (ItemType.ADD_USER, n) i2).todoUids = st.todoUids ∨
            (putItemBack stu (ItemType.ADD_USER, n) i2).todoUids =
              st.todoUids ++ [(i2.uid, (ItemType.ADD_USER, n))] := by
          rcases utud with he | he
          · left
            show stu.todoUids = st.todoUids
            rw [he]
            exact htu1
          · right
            show stu.todoUids = _
            rw [he, htu1, hpair2]
        have htg2 : (putItemBack stu (ItemType.ADD_USER, n) i2).todoGids = st.todoGids ∨
            (putItemBack stu (ItemType.ADD_USER, n) i2).todoGids =
              st.todoGids ++ [(i2.gid, (ItemType.ADD_USER, n))] := by
          have hmid : stu.todoGids = (putItemBack stg (ItemType.ADD_USER, n) i1).todoGids :=
            utgd
          rcases htg1 with he | he
          · left
            show stu.todoGids = st.todoGids
            rw [hmid]
            exact he
          · right
            show stu.todoGids = _
            rw [hmid, he, ugid]
        exact user_step_pre st _ n _ suf hwf hinv hdist hfresh' hneu_id hneg_id
          hid_not hallu hsuf' hnd' hgetne2 hself2 hgr2 husm2 htu2 htg2
  | ADD_GROUP =>
    have hpn := hphase ⟨(ItemType.ADD_GROUP, n), List.mem_cons_self _ _, rfl⟩
    unfold process_item
    cases hi : getItem st (ItemType.ADD_GROUP, n) with
    | none =>
      exact ⟨⟨hwf, hinv, hdist, hfresh', hphase', hsuf', hnd'⟩,
        fun p hp => hp, fun p hp => hp⟩
    | some i =>
      have hgg : hashmap_get st.groups n = some i := hi
      obtain ⟨hty, hnm⟩ := hwf.2 (n, i) (hashmap_get_mem hgg)
      dsimp only
      rw [hty]
      dsimp only
      cases hj : hashmap_get st.users i.name with
      | some j =>
        dsimp only
        obtain ⟨jty, jnm⟩ := hwf.1 (i.name, j) (hashmap_get_mem hj)
        obtain ⟨fty, fnm⟩ := fold_group_into_user_keeps i j
        refine ⟨⟨⟨?_, ?_⟩, ⟨?_, ?_⟩, hdist, hfresh', ?_, hsuf', hnd'⟩,
          fun p hp => hp, fun p hp => hp⟩
        · -- WFdecl users: only the paired user's binding is rewritten
          intro p hp
          rcases hashmap_update_mem hp with hold | hnew
          · exact hwf.1 p hold
          · subst hnew
            exact ⟨fty.trans jty, fnm.trans jnm⟩
        · -- WFdecl groups: unchanged
          intro p hp
          exact hwf.2 p hp
        · -- TodoInv uids: the pending UID set is empty during the group phase
          intro p hp
          have hp0 : p ∈ st.todoUids := hp
          rw [hpn.1] at hp0
          cases hp0
        · -- TodoInv gids: every entry is a group item, whose map is untouched
          intro p hp
          have hp0 : p ∈ st.todoGids := hp
          obtain ⟨k, t', m⟩ := p
          have ht' : t' = ItemType.ADD_GROUP := hpn.2 _ hp0
          subst ht'
          obtain ⟨it, hgi, hgd⟩ := hinv.2 _ hp0
          exact ⟨it, hgi, hgd⟩
        · -- PhaseOk
          intro _
          exact ⟨hpn.1, fun p hp => hpn.2 p hp⟩
      | none =>
        dsimp only
        obtain ⟨gty, gnm, guid, guset, ggp, gup, gdesc, gusers, ggroups, gdbu, gdbi,
          gdbg, gdbgi, gtu, gsu, gsg, gtgd⟩ := add_group_post cfg st i
        set i1 := (add_group cfg st i).2.2 with hi1def
        set stg := (add_group cfg st i).2.1 with hstgdef
        have hi1ty : i1.type = ItemType.ADD_GROUP := gty.trans hty
        have hi1nm : i1.name = n := gnm.trans hnm
        have hpair1 : (i1.type, i1.name) = (ItemType.ADD_GROUP, n) := by
          rw [hi1ty, hi1nm]
        have hself1 : getItem (putItemBack stg (ItemType.ADD_GROUP, n) i1)
            (ItemType.ADD_GROUP, n) = some i1 :=
          getItem_putItemBack_self _ (by rw [getItem_congr gusers ggroups]; exact hi)
        have hgetne1 : ∀ id' : ItemId, id' ≠ (ItemType.ADD_GROUP, n) →
            getItem (putItemBack stg (ItemType.ADD_GROUP, n) i1) id' = getItem st id' := by
          intro id' hne
          rw [getItem_putItemBack_ne _ _ _ _ hne, getItem_congr gusers ggroups]
        have hus1 : (putItemBack stg (ItemType.ADD_GROUP, n) i1).users = st.users := gusers
        have hgm1 : ∀ p ∈ (putItemBack stg (ItemType.ADD_GROUP, n) i1).groups,
            p ∈ st.groups ∨ ((p.2).type = ItemType.ADD_GROUP ∧ (p.2).name = p.1) := by
          intro p hp
          have hp' : p ∈ hashmap_update st.groups n i1 := by
            have hp2 : p ∈ hashmap_update stg.groups n i1 := hp
            rw [ggroups] at hp2
            exact hp2
          rcases hashmap_update_mem hp' with hold | hnew
          · exact Or.inl hold
          · subst hnew
            exact Or.inr ⟨hi1ty, hi1nm⟩
        have htu1 : (putItemBack stg (ItemType.ADD_GROUP, n) i1).todoUids = st.todoUids := gtu
        have htg1 : (putItemBack stg (ItemType.ADD_GROUP, n) i1).todoGids = st.todoGids ∨
            (putItemBack stg (ItemType.ADD_GROUP, n) i1).todoGids =
              st.todoGids ++ [(i1.gid, (ItemType.ADD_GROUP, n))] := by
          rcases gtgd with he | he
          · exact Or.inl he
          · right
            show stg.todoGids = _
            rw [he, hpair1]
        exact group_step_pre st _ n _ suf hwf hinv hdist hfresh' hpn hneg_id
          hid_not hsuf' hnd' hgetne1 hself1 hus1 hgm1 htu1 htg1

/-- `runIds` over an id-list split distributes as two runs. -/
theorem runIds_append (cfg : Config) (st : RunState) (l1 l2 : List ItemId) :
    runIds cfg st (l1 ++ l2) = runIds cfg (runIds cfg st l1) l2 :=
  List.foldl_append _ _ _ _

/-- A whole reconciliation run preserves the invariant and only appends to
the pending sets. -/
theorem runIds_pre (cfg : Config) :
    ∀ (ids suf : List ItemId) (st : RunState), Pre st (ids ++ suf) →
      Pre (runIds cfg st ids) suf ∧
      (∀ p ∈ st.todoUids, p ∈ (runIds cfg st ids).todoUids) ∧
      (∀ p ∈ st.todoGids, p ∈ (runIds cfg st ids).todoGids) := by
  intro ids
  induction ids with
  | nil => exact fun suf st h => ⟨h, fun p hp => hp, fun p hp => hp⟩
  | cons id rest ih =>
    intro suf st h
    have hstep := process_item_pre cfg st id (rest ++ suf) h
    have hrest := ih suf (process_item cfg st id).2 hstep.1
    refine ⟨hrest.1, ?_, ?_⟩
    · intro p hp
      exact hrest.2.1 p (hstep.2.1 p hp)
    · intro p hp
      exact hrest.2.2 p (hstep.2.2 p hp)

/-- Amended C5: at every point of a `main`-shaped run (all declared groups,
then all declared users, starting from empty pending sets and well-formed
declared maps with distinct names):
(a) every pending-set entry resolves to an item whose current numeric ID
    equals the key it was inserted under — the ID is frozen;
(b) each item has at most one entry in each pending set;
(c) an entry present at any intermediate point is still present, under the
    same key, at the end of the run, where (a) still holds;
(d) entries of `pending_uids` are always `ADD_USER` items, so an `ADD_GROUP`
    item appears in at most one of the two sets — but an `ADD_USER` item may
    legitimately appear in both (its paired group and its user creation),
    which is what refutes the original claim. -/
theorem pending_sets_frozen (cfg : Config) (st0 : RunState) (pre suf : List ItemId)
    (hwf : WFdecl st0) (hu : st0.todoUids = []) (hg : st0.todoGids = [])
    (hnd : (mainIds st0).Nodup) (hsplit : mainIds st0 = pre ++ suf) :
    (TodoInv (runIds cfg st0 pre) ∧ DistinctIds (runIds cfg st0 pre)) ∧
    (∀ p ∈ (runIds cfg st0 pre).todoUids,
       p ∈ (runIds cfg st0 (mainIds st0)).todoUids) ∧
    (∀ p ∈ (runIds cfg st0 pre).todoGids,
       p ∈ (runIds cfg st0 (mainIds st0)).todoGids) ∧
    TodoInv (runIds cfg st0 (mainIds st0)) ∧
    DistinctIds (runIds cfg st0 (mainIds st0)) := by
  have hpre0 : Pre st0 (mainIds st0) := by
    refine ⟨hwf, ⟨?_, ?_⟩, ⟨?_, ?_⟩, ⟨?_, ?_⟩, ?_, ?_, hnd⟩
    · intro p hp; rw [hu] at hp; cases hp
    · intro p hp; rw [hg] at hp; cases hp
    · rw [hu]; exact List.nodup_nil
    · rw [hg]; exact List.nodup_nil
    · intro p hp; rw [hu] at hp; cases hp
    · intro p hp; rw [hg] at hp; cases hp
    · intro _
      refine ⟨hu, ?_⟩
      intro p hp; rw [hg] at hp; cases hp
    · unfold mainIds
      refine ⟨st0.groups.map (fun p => (ItemType.ADD_GROUP, p.1)),
        st0.users.map (fun p => (ItemType.ADD_USER, p.1)), rfl, ?_, ?_⟩
      · intro x hx
        obtain ⟨q, -, hqe⟩ := List.mem_map.1 hx
        rw [← hqe]
      · intro x hx
        obtain ⟨q, -, hqe⟩ := List.mem_map.1 hx
        rw [← hqe]
  rw [hsplit] at hpre0
  have h1 := runIds_pre cfg pre suf st0 hpre0
  have h2 := runIds_pre cfg suf [] (runIds cfg st0 pre)
    (by rw [List.append_nil]; exact h1.1)
  have hfin : runIds cfg st0 (mainIds st0) = runIds cfg (runIds cfg st0 pre) suf := by
    rw [hsplit, runIds_append]
  refine ⟨⟨h1.1.2.1, h1.1.2.2.1⟩, ?_, ?_, ?_, ?_⟩
  · intro p hp
    rw [hfin]
    exact h2.2.1 p hp
  · intro p hp
    rw [hfin]
    exact h2.2.2 p hp
  · rw [hfin]
    exact h2.1.2.1
  · rw [hfin]
    exact h2.1.2.2.1

/-- Witness for the amended C5, on the counterexample run itself: after
processing the single declared user `h`, both pending sets satisfy the
key-equals-ID invariant and per-set uniqueness. -/
theorem pending_sets_frozen_witness :
    TodoInv (runIds cfgRoot3 (init_state cfgRoot3 declC5 [] fsExh)
      [(ItemType.ADD_USER, "h")]) ∧
    DistinctIds (runIds cfgRoot3 (init_state cfgRoot3 declC5 [] fsExh)
      [(ItemType.ADD_USER, "h")]) :=
  (pending_sets_frozen cfgRoot3 (init_state cfgRoot3 declC5 [] fsExh)
    [(ItemType.ADD_USER, "h")] [] ⟨by decide, by decide⟩ rfl rfl (by decide)
    (by decide)).1

/-! ## C9: a missing `<id>` field behaves like `-` -/

/-- A run of non-whitespace characters is wholly taken by `%ms`. -/
theorem takeWhile_all_nonws (w : List Char) (h : ∀ c ∈ w, isWsScanf c = false) :
    w.takeWhile (fun c => !isWsScanf c) = w := by
  induction w with
  | nil => rfl
  | cons c rest ih =>
    rw [List.takeWhile_cons]
    simp [h c (List.mem_cons_self _ _),
      ih (fun x hx => h x (List.mem_cons_of_mem _ hx))]

/-- A run of non-whitespace characters leaves nothing behind. -/
theorem dropWhile_all_nonws (w : List Char) (h : ∀ c ∈ w, isWsScanf c = false) :
    w.dropWhile (fun c => !isWsScanf c) = [] := by
  induction w with
  | nil => rfl
  | cons c rest ih =>
    rw [List.dropWhile_cons]
    simp [h c (List.mem_cons_self _ _),
      ih (fun x hx => h x (List.mem_cons_of_mem _ hx))]

/-- `%ms` stops exactly at the first whitespace after a token. -/
theorem takeWhile_append_ws (w : List Char) (h : ∀ c ∈ w, isWsScanf c = false)
    (r : List Char) :
    (w ++ ' ' :: r).takeWhile (fun c => !isWsScanf c) = w ∧
    (w ++ ' ' :: r).dropWhile (fun c => !isWsScanf c) = ' ' :: r := by
  induction w with
  | nil =>
    constructor
    · rw [List.nil_append, List.takeWhile_cons]
      simp [isWsScanf]
    · rw [List.nil_append, List.dropWhile_cons]
      simp [isWsScanf]
  | cons c rest ih =>
    obtain ⟨ih1, ih2⟩ := ih (fun x hx => h x (List.mem_cons_of_mem _ hx))
    constructor
    · rw [List.cons_append, List.takeWhile_cons]
      simp [h c (List.mem_cons_self _ _), ih1]
    · rw [List.cons_append, List.dropWhile_cons]
      simp [h c (List.mem_cons_self _ _), ih2]

/-- Leading whitespace is skipped by a conversion. -/
theorem matchTok_skip_ws (r : List Char) : matchTok (' ' :: r) = matchTok r := by
  unfold matchTok
  rw [List.dropWhile_cons]
  simp [isWsScanf]

/-- A conversion on a bare word takes it whole. -/
theorem matchTok_word_end (w : List Char) (hw : w ≠ [])
    (hwc : ∀ c ∈ w, isWsScanf c = false) : matchTok w = some (w, []) := by
  obtain ⟨c, rest, rfl⟩ : ∃ c rest, w = c :: rest := by
    cases w with
    | nil => exact absurd rfl hw
    | cons c rest => exact ⟨c, rest, rfl⟩
  unfold matchTok
  dsimp only
  rw [List.dropWhile_cons, hwc c (List.mem_cons_self _ _)]
  simp only [Bool.false_eq_true, if_false]
  rw [takeWhile_all_nonws _ hwc, dropWhile_all_nonws _ hwc]
  simp

/-- A conversion on a word followed by a space stops at the space. -/
theorem matchTok_word_sep (w r : List Char) (hw : w ≠ [])
    (hwc : ∀ c ∈ w, isWsScanf c = false) :
    matchTok (w ++ ' ' :: r) = some (w, ' ' :: r) := by
  obtain ⟨c, rest, rfl⟩ : ∃ c rest, w = c :: rest := by
    cases w with
    | nil => exact absurd rfl hw
    | cons c rest => exact ⟨c, rest, rfl⟩
  obtain ⟨htw, hdw⟩ := takeWhile_append_ws (c :: rest) hwc r
  unfold matchTok
  dsimp only
  rw [List.cons_append, List.dropWhile_cons, hwc c (List.mem_cons_self _ _)]
  simp only [Bool.false_eq_true, if_false]
  rw [← List.cons_append, htw, hdw]
  simp

/-- The `sscanf` model on a two-field line: two conversions succeed, the id
token and the `%n` position are unassigned. -/
theorem sscanf3_two_fields (t : Char) (w : List Char)
    (ht : isWsScanf t = false) (hw : w ≠ []) (hwc : ∀ c ∈ w, isWsScanf c = false) :
    sscanf3 (t :: ' ' :: w) = (2, some [t], some w, none, none) := by
  have hm1 : matchTok (t :: ' ' :: w) = some ([t], ' ' :: w) :=
    matchTok_word_sep [t] w (by simp) (by simpa using ht)
  have hm2 : matchTok (' ' :: w) = some (w, []) := by
    rw [matchTok_skip_ws]
    exact matchTok_word_end w hw hwc
  unfold sscanf3
  rw [hm1]
  dsimp only
  rw [hm2]
  rfl

/-- The `sscanf` model on the same line with an explicit `-` id: three
conversions succeed and `%n` lands at the end of the buffer. -/
theorem sscanf3_dash_id (t : Char) (w : List Char)
    (ht : isWsScanf t = false) (hw : w ≠ []) (hwc : ∀ c ∈ w, isWsScanf c = false) :
    sscanf3 (t :: ' ' :: (w ++ [' ', '-'])) =
      (3, some [t], some w, some ['-'],
        some ((t :: ' ' :: (w ++ [' ', '-'])).length)) := by
  have happ : (t :: ' ' :: (w ++ [' ', '-'])) = t :: ' ' :: (w ++ ' ' :: ['-']) := rfl
  have hm1 : matchTok (t :: ' ' :: (w ++ ' ' :: ['-'])) =
      some ([t], ' ' :: (w ++ ' ' :: ['-'])) := by
    have := matchTok_word_sep [t] (w ++ ' ' :: ['-']) (by simp) (by simpa using ht)
    simpa using this
  have hm2 : matchTok (' ' :: (w ++ ' ' :: ['-'])) = some (w, ' ' :: ['-']) := by
    rw [matchTok_skip_ws]
    exact matchTok_word_sep w ['-'] hw hwc
  have hm3 : matchTok (' ' :: ['-']) = some (['-'], []) := by
    rw [matchTok_skip_ws]
    exact matchTok_word_end ['-'] (by simp) (by decide)
  rw [happ]
  unfold sscanf3
  rw [hm1]
  dsimp only
  rw [hm2]
  dsimp only
  rw [hm3]
  dsimp only
  simp

/-- Claim C9: a configuration line with only a type character and a name —
the `<id>` field entirely absent — is accepted by `parse_line` without a
syntax error: the `sscanf` yields exactly two conversions (so the `r < 2`
syntax-error branch is not taken), and the produced item is exactly the item
produced with the unspecified marker `-` in place of the id. -/
theorem parse_line_missing_id_defaults (cfg : Config) (t : Char) (w : List Char)
    (ht : isWsScanf t = false) (hw : w ≠ []) (hwc : ∀ c ∈ w, isWsScanf c = false) :
    (sscanf3 (t :: ' ' :: w)).1 = 2 ∧
    parse_line cfg (t :: ' ' :: w) = parse_line cfg (t :: ' ' :: (w ++ [' ', '-'])) := by
  have hs1 := sscanf3_two_fields t w ht hw hwc
  have hs2 := sscanf3_dash_id t w ht hw hwc
  refine ⟨by rw [hs1], ?_⟩
  unfold parse_line
  rw [hs1, hs2]
  dsimp only
  rw [if_neg (by omega : ¬(2 < 2)), if_neg (by omega : ¬(3 < 2))]
  have hdl : (t :: ' ' :: (w ++ [' ', '-'])).drop
      ((t :: ' ' :: (w ++ [' ', '-'])).length) = [] := List.drop_length _
  rw [hdl]
  dsimp only [List.takeWhile_nil, List.length_nil, Nat.add_zero]
  rw [hdl]
  rfl

/-- Witness for C9 at the concrete line `u foo`: two conversions, same item
as `u foo -`. -/
theorem parse_line_missing_id_defaults_witness :
    (sscanf3 ('u' :: ' ' :: "foo".toList)).1 = 2 ∧
    parse_line cfgRoot3 ('u' :: ' ' :: "foo".toList) =
      parse_line cfgRoot3 ('u' :: ' ' :: ("foo".toList ++ [' ', '-'])) :=
  parse_line_missing_id_defaults cfgRoot3 'u' "foo".toList (by decide) (by decide)
    (by decide)
